import Mathlib

/-!
Verification of the dark-piece Chinese-chess rules engine.

The definitions below are a shallow embedding of the engine source
(`gameEngine.ts` together with `types.ts`).  TypeScript/JavaScript
behaviour is modelled as follows:

* machine numbers are `Int` (coordinates, counts) or `Nat` (lengths,
  counters that are never negative in the source);
* `null` / `undefined` fields are `Option`;
* array indexing `a[i]` is `jsIndex` (out-of-range and negative indices
  give `none`, matching JavaScript's `undefined`);
* a JavaScript runtime exception (dereferencing `null`/`undefined`) is
  modelled by the transition function returning `none`; an ordinary
  rejection is `some state` with `state.error` set;
* the engine's error message strings are modelled by the inductive
  `GameError` (one constructor per distinct message, carrying the data
  that the source interpolates into the string);
* `Math.random`-driven parts (deck shuffle, id generation) are taken as
  an explicit `deck` parameter of the initializer.
-/

namespace Banqi

/-- Piece colors (types.ts `Color`). -/
inductive Color
  | RED
  | BLACK
  | UNKNOWN
deriving DecidableEq, Repr

/-- The seven piece kinds (types.ts `PieceType`). -/
inductive PieceType
  | GENERAL
  | ADVISOR
  | ELEPHANT
  | CHARIOT
  | HORSE
  | CANNON
  | SOLDIER
deriving DecidableEq, Repr

open Color PieceType

/-- types.ts `PIECE_RANKS`. -/
def PIECE_RANKS : PieceType → Nat
  | GENERAL => 6
  | ADVISOR => 5
  | ELEPHANT => 4
  | CHARIOT => 3
  | HORSE => 2
  | CANNON => 1
  | SOLDIER => 0

/-- types.ts `STACK_LIMITS`. -/
def STACK_LIMITS : PieceType → Nat
  | SOLDIER => 12
  | GENERAL => 2
  | ADVISOR => 6
  | ELEPHANT => 6
  | CHARIOT => 6
  | HORSE => 6
  | CANNON => 6

/-- types.ts `INITIAL_PIECE_COUNTS`. -/
def INITIAL_PIECE_COUNTS : PieceType → Nat
  | GENERAL => 1
  | ADVISOR => 2
  | ELEPHANT => 2
  | CHARIOT => 2
  | HORSE => 2
  | CANNON => 2
  | SOLDIER => 5

/-- types.ts `PieceInstance`. -/
structure PieceInstance where
  id : String
  type : PieceType
  color : Color
  faceUp : Bool
deriving DecidableEq, Repr

/-- types.ts `PieceStack` (index 0 is the bottom, the last index the top). -/
structure PieceStack where
  pieces : List PieceInstance
deriving DecidableEq, Repr

/-- types.ts `Board = (PieceStack | null)[][]` (4 rows of 8 cells). -/
abbrev Board := List (List (Option PieceStack))

/-- types.ts `HandState`. -/
structure HandState where
  pieces : List PieceInstance
deriving DecidableEq, Repr

/-- types.ts `PlayerState`. -/
structure PlayerState where
  color : Color
  hand : HandState
deriving DecidableEq, Repr

/-- types.ts `Location` (row/col are JavaScript numbers, so `Int`). -/
structure Location where
  row : Int
  col : Int
deriving DecidableEq, Repr

/-- types.ts `ActionType`. -/
inductive ActionType
  | FLIP
  | MOVE
  | DEPLOY
  | RETRIEVE
  | PASS
deriving DecidableEq, Repr

/-- types.ts `CaptureResolution`. -/
inductive CaptureResolution
  | TO_HAND
  | STACK_IF_POSSIBLE
deriving DecidableEq, Repr

/-- types.ts `PlayerAction`; the `from` field is renamed `fromLoc`
(`from` is reserved in Lean) and `to` is `toLoc` to match. -/
structure PlayerAction where
  type : ActionType
  playerId : Nat
  flipLocation : Option Location := none
  fromLoc : Option Location := none
  toLoc : Option Location := none
  captureResolution : Option CaptureResolution := none
  deployType : Option PieceType := none
  deployCount : Option Int := none
  deployTo : Option Location := none
  retrieveFrom : Option Location := none
  retrievePieceIds : Option (List String) := none
deriving DecidableEq, Repr

/-- The reason payload of a failed `canStackOn` check, one constructor per
distinct message produced by the source, carrying the interpolated data. -/
inductive StackReason
  | colorMismatch
  | typeMismatch (base incoming : PieceType)
  | limitExceeded (base : PieceType) (limit got : Nat)
deriving DecidableEq, Repr

/-- The engine's error messages (state.error strings), one constructor per
distinct message in the source, carrying the interpolated data. -/
inductive GameError
  | gameOver
  | notYourTurn
  | chainMustContinue
  | chainWrongPiece
  | cannotPassNotChaining
  | missingFlipLocation
  | emptyCell
  | alreadyRevealed
  | missingCoords
  | invalidCoords
  | moveToSelf
  | noSource
  | cannotMoveHidden
  | notYourPiece
  | invalidMovePattern (t : PieceType)
  | chainMustCapture
  | cannonNeedsTarget
  | cannotInteractHidden
  | captureFailed
  | invalidCannonCapture
  | cannotStack (r : StackReason)
  | cannotDeployDuringChain
  | missingDeployParams
  | deployCountTooSmall
  | invalidDeployCoords
  | notEnoughInHand (t : PieceType)
  | cannotDeployOnHidden
  | cannotDeployOnEnemy
  | deployFailed (r : StackReason)
  | cannotRetrieveDuringChain
  | missingRetrieveParams
  | noStack
  | notYourStack
  | mustLeaveOne
  | pieceNotInStack (id : String)
deriving DecidableEq, Repr

/-- types.ts `GameState`; `players` is the two-element array. -/
structure GameState where
  board : Board
  players : PlayerState × PlayerState
  activePlayerIndex : Nat
  colorsAssigned : Bool
  turnCount : Nat
  isGameOver : Bool
  winner : Option Nat
  lastAction : Option PlayerAction
  error : Option GameError
  pendingChainCapture : Option Location
deriving DecidableEq, Repr

/-- JavaScript array read `l[i]`: negative or too-large indices give
`undefined`, modelled as `none`. -/
def jsIndex {α : Type _} (l : List α) (i : Int) : Option α :=
  if i < 0 then none else l.get? i.toNat

/-- Board cell read `board[r][c]` when the row is known to exist; the outer
`none` means the row itself was `undefined` (`board[r][c]` would throw). -/
def jsCellE (b : Board) (r c : Int) : Option (Option PieceStack) :=
  (jsIndex b r).map (fun rowl => (jsIndex rowl c).join)

/-- Board cell read collapsing a missing row and an empty cell; used where
the source only reads in-range cells. -/
def jsCell (b : Board) (r c : Int) : Option PieceStack :=
  (jsCellE b r c).join

/-- In-place list update at index `n` (no-op when out of range, which the
callers never hit: they write only to cells they have already read). -/
def setInList {α : Type _} : List α → Nat → (α → α) → List α
  | [], _, _ => []
  | a :: l, 0, f => f a :: l
  | a :: l, n + 1, f => a :: setInList l n f

/-- Board cell write `board[loc.row][loc.col] = v`. -/
def setCell (b : Board) (loc : Location) (v : Option PieceStack) : Board :=
  if loc.row < 0 ∨ loc.col < 0 then b
  else setInList b loc.row.toNat (fun rowl => setInList rowl loc.col.toNat (fun _ => v))

/-- `players[i]` (the source array has exactly two entries). -/
def getPlayer? (ps : PlayerState × PlayerState) (i : Nat) : Option PlayerState :=
  if i = 0 then some ps.1 else if i = 1 then some ps.2 else none

/-- In-place update of `players[i]` (no-op out of range, never hit). -/
def setPlayer (ps : PlayerState × PlayerState) (i : Nat) (p : PlayerState) :
    PlayerState × PlayerState :=
  if i = 0 then (p, ps.2) else if i = 1 then (ps.1, p) else ps

/-- gameEngine.ts `isValidCoordinate`. -/
def isValidCoordinate (loc : Location) : Bool :=
  0 ≤ loc.row ∧ loc.row < 4 ∧ 0 ≤ loc.col ∧ loc.col < 8

/-- gameEngine.ts `getStackWeight`. -/
def getStackWeight (stack : Option PieceStack) : Nat :=
  match stack with
  | some s => s.pieces.length
  | none => 0

/-- gameEngine.ts `getStackBaseType`: the first non-General piece scanning
from the bottom, General if the stack is all Generals.  The source throws
on an empty stack; this total version returns General there and is only
ever applied to non-empty stacks. -/
def getStackBaseType (pieces : List PieceInstance) : PieceType :=
  match pieces.find? (fun p => p.type ≠ GENERAL) with
  | some p => p.type
  | none => GENERAL

/-- gameEngine.ts `getTopPiece`. -/
def getTopPiece (stack : Option PieceStack) : Option PieceInstance :=
  match stack with
  | some s => s.pieces.getLast?
  | none => none

/-- gameEngine.ts `canStackOn`; `none` is `{valid: true}`, `some r` is
`{valid: false, reason: r}`.  When `checkColor` is set the source reads the
top of `incomingPieces` (and would throw on an empty incoming list, which
no caller passes); the color check is skipped in that unreachable case. -/
def canStackOn (targetPieces incomingPieces : List PieceInstance)
    (checkColor : Bool) : Option StackReason :=
  if targetPieces.isEmpty then none
  else
    let colorBad :=
      checkColor &&
        match targetPieces.getLast?, incomingPieces.getLast? with
        | some tt, some ti => tt.color ≠ ti.color
        | _, _ => false
    if colorBad then some .colorMismatch
    else
      let baseType := getStackBaseType targetPieces
      match (if baseType ≠ GENERAL then
              incomingPieces.find? (fun p => ¬(p.type = baseType ∨ p.type = GENERAL))
            else none) with
      | some p => some (.typeMismatch baseType p.type)
      | none =>
        let combined := targetPieces ++ incomingPieces
        let newBase := getStackBaseType combined
        let limit := STACK_LIMITS newBase
        if combined.length > limit then some (.limitExceeded newBase limit combined.length)
        else none

/-- gameEngine.ts `countPiecesBetween` (all call sites pass coordinates on
the 4×8 board, so the plain `jsCell` read is exact). -/
def countPiecesBetween (board : Board) (f t : Location) : Nat :=
  if f.row = t.row then
    let lo := min f.col t.col
    let hi := max f.col t.col
    (List.range (hi - lo - 1).toNat).countP
      (fun i => (jsCell board f.row (lo + 1 + i)).isSome)
  else if f.col = t.col then
    let lo := min f.row t.row
    let hi := max f.row t.row
    (List.range (hi - lo - 1).toNat).countP
      (fun i => (jsCell board (lo + 1 + i) f.col).isSome)
  else 0

/-- Result record of gameEngine.ts `getMovePatternDetails`. -/
structure MovePatternDetails where
  valid : Bool
  isCannonCapture : Bool
  screens : Nat
deriving DecidableEq, Repr

/-- gameEngine.ts `getMovePatternDetails`. -/
def getMovePatternDetails (board : Board) (f t : Location) (baseType : PieceType) :
    MovePatternDetails :=
  let dr := t.row - f.row
  let dc := t.col - f.col
  let isLine := f.row = t.row ∨ f.col = t.col
  let dist := dr.natAbs + dc.natAbs
  match baseType with
  | HORSE =>
      { valid := dr.natAbs = 1 ∧ dc.natAbs = 1, isCannonCapture := false, screens := 0 }
  | CHARIOT =>
      if isLine then
        let screens := countPiecesBetween board f t
        { valid := screens = 0, isCannonCapture := false, screens := screens }
      else { valid := false, isCannonCapture := false, screens := 0 }
  | CANNON =>
      if isLine then
        let screens := countPiecesBetween board f t
        { valid := screens = 0 ∨ screens = 1,
          isCannonCapture := screens = 1, screens := screens }
      else { valid := false, isCannonCapture := false, screens := 0 }
  | _ =>
      { valid := dist = 1, isCannonCapture := false, screens := 0 }

/-- gameEngine.ts `canPieceCaptureTarget`.  The source dereferences the two
top pieces with non-null assertions; the `false` fallback for an empty
stack is unreachable at every call site. -/
def canPieceCaptureTarget (board : Board) (f t : Location)
    (attackerStack defenderStack : PieceStack) : Bool :=
  let baseType := getStackBaseType attackerStack.pieces
  let pattern := getMovePatternDetails board f t baseType
  if !pattern.valid then false
  else
    match getTopPiece (some attackerStack), getTopPiece (some defenderStack) with
    | some atkTop, some defTop =>
      if atkTop.color = defTop.color then true
      else
        let atkWeight := getStackWeight (some attackerStack)
        let defWeight := getStackWeight (some defenderStack)
        if atkWeight > defWeight then true
        else if atkWeight < defWeight then false
        else if baseType = CANNON ∧ pattern.screens = 1 then true
        else if atkTop.type = SOLDIER ∧ defTop.type = GENERAL then true
        else if atkTop.type = GENERAL ∧ defTop.type = SOLDIER then false
        else PIECE_RANKS atkTop.type ≥ PIECE_RANKS defTop.type
    | _, _ => false

/-- gameEngine.ts `hasChainOptions` (the `playerColor` parameter is unused
in the source as well). -/
def hasChainOptions (gameState : GameState) (loc : Location) (_playerColor : Color) : Bool :=
  let board := gameState.board
  match jsCell board loc.row loc.col with
  | none => false
  | some stack =>
    (List.range 4).any fun r =>
      (List.range 8).any fun c =>
        if (Int.ofNat r = loc.row ∧ Int.ofNat c = loc.col : Prop) then false
        else
          match jsCell board (Int.ofNat r) (Int.ofNat c) with
          | none => false
          | some target =>
            match getTopPiece (some target) with
            | none => false
            | some targetTop =>
              targetTop.faceUp &&
                canPieceCaptureTarget board loc ⟨Int.ofNat r, Int.ofNat c⟩ stack target

/-- First-occurrence deduplication of the hand's piece types, matching the
iteration order of the JavaScript `Set` built in `getLegalActions`. -/
def handTypes (pieces : List PieceInstance) : List PieceType :=
  pieces.foldl (fun acc p => if p.type ∈ acc then acc else acc ++ [p.type]) []

/-- gameEngine.ts `getLegalActions`.  Total model: the source would throw
on an out-of-range player index, a malformed board or an empty stack; all
call sites pass index 0/1 and a 4×8 board without empty stacks. -/
def getLegalActions (state : GameState) (playerIndex : Nat) : List PlayerAction :=
  let player := (getPlayer? state.players playerIndex).getD ⟨UNKNOWN, ⟨[]⟩⟩
  match state.pendingChainCapture with
  | some pcc =>
    ({ type := .PASS, playerId := playerIndex } : PlayerAction) ::
      (match jsCell state.board pcc.row pcc.col with
       | none => []
       | some stack =>
         (List.range 4).flatMap fun tr =>
           (List.range 8).flatMap fun tc =>
             if (Int.ofNat tr = pcc.row ∧ Int.ofNat tc = pcc.col : Prop) then []
             else
               match jsCell state.board (Int.ofNat tr) (Int.ofNat tc) with
               | none => []
               | some target =>
                 match getTopPiece (some target) with
                 | none => []
                 | some tTop =>
                   if tTop.faceUp &&
                       canPieceCaptureTarget state.board pcc ⟨Int.ofNat tr, Int.ofNat tc⟩
                         stack target then
                     [{ type := .MOVE, playerId := playerIndex,
                        fromLoc := some pcc, toLoc := some ⟨Int.ofNat tr, Int.ofNat tc⟩,
                        captureResolution := some .TO_HAND }]
                   else [])
  | none =>
    (List.range 4).flatMap fun r =>
      (List.range 8).flatMap fun c =>
        match jsCell state.board (Int.ofNat r) (Int.ofNat c) with
        | none =>
          if player.hand.pieces.isEmpty then []
          else
            (handTypes player.hand.pieces).map fun ty =>
              { type := .DEPLOY, playerId := playerIndex,
                deployTo := some ⟨Int.ofNat r, Int.ofNat c⟩,
                deployType := some ty, deployCount := some 1 }
        | some stack =>
          match stack.pieces.getLast? with
          | none => []
          | some top =>
            if ¬ top.faceUp then
              [{ type := .FLIP, playerId := playerIndex,
                 flipLocation := some ⟨Int.ofNat r, Int.ofNat c⟩ }]
            else if state.colorsAssigned ∧ top.color = player.color then
              (if stack.pieces.length > 1 then
                 [{ type := .RETRIEVE, playerId := playerIndex,
                    retrieveFrom := some ⟨Int.ofNat r, Int.ofNat c⟩,
                    retrievePieceIds := some [top.id] }]
               else []) ++
              (let baseType := getStackBaseType stack.pieces
               (List.range 4).flatMap fun tr =>
                 (List.range 8).flatMap fun tc =>
                   if (r = tr ∧ c = tc : Prop) then []
                   else
                     let f : Location := ⟨Int.ofNat r, Int.ofNat c⟩
                     let t : Location := ⟨Int.ofNat tr, Int.ofNat tc⟩
                     let pattern := getMovePatternDetails state.board f t baseType
                     if ¬ pattern.valid then []
                     else
                       match jsCell state.board (Int.ofNat tr) (Int.ofNat tc) with
                       | none =>
                         if baseType = CANNON ∧ pattern.screens > 0 then []
                         else
                           [{ type := .MOVE, playerId := playerIndex,
                              fromLoc := some f, toLoc := some t }]
                       | some targetStack =>
                         match targetStack.pieces.getLast? with
                         | none => []
                         | some targetTop =>
                           if ¬ targetTop.faceUp then []
                           else if targetTop.color = player.color then
                             (if canStackOn targetStack.pieces stack.pieces true = none then
                                [{ type := .MOVE, playerId := playerIndex,
                                   fromLoc := some f, toLoc := some t,
                                   captureResolution := some .STACK_IF_POSSIBLE }]
                              else []) ++
                             [{ type := .MOVE, playerId := playerIndex,
                                fromLoc := some f, toLoc := some t,
                                captureResolution := some .TO_HAND }]
                           else if canPieceCaptureTarget state.board f t stack targetStack then
                             [{ type := .MOVE, playerId := playerIndex,
                                fromLoc := some f, toLoc := some t,
                                captureResolution := some .TO_HAND }] ++
                             (if canStackOn targetStack.pieces stack.pieces false = none then
                                [{ type := .MOVE, playerId := playerIndex,
                                   fromLoc := some f, toLoc := some t,
                                   captureResolution := some .STACK_IF_POSSIBLE }]
                              else [])
                           else [])
            else []

/-- gameEngine.ts `fail`. -/
def fail (state : GameState) (e : GameError) : GameState :=
  { state with error := some e }

/-- The face-up-tops scan of the win-condition block (`allRevealed`): every
stack's top piece is face-up.  The source would throw on an empty stack. -/
def allRevealedB (board : Board) : Bool :=
  (List.range 4).all fun r =>
    (List.range 8).all fun c =>
      match jsCell board (Int.ofNat r) (Int.ofNat c) with
      | none => true
      | some s =>
        match getTopPiece (some s) with
        | none => true
        | some top => top.faceUp

/-- The ownership scan of the win-condition block (`hasPieceOnBoard`): some
stack has a face-up top of the given color. -/
def hasPieceOnBoardB (board : Board) (color : Color) : Bool :=
  (List.range 4).any fun r =>
    (List.range 8).any fun c =>
      match jsCell board (Int.ofNat r) (Int.ofNat c) with
      | none => false
      | some s =>
        match getTopPiece (some s) with
        | none => false
        | some top => top.faceUp && top.color = color

/-- The win-condition block at the end of `applyAction` (lines after the
action switch), run when no chain is pending. -/
def winCheck (s : GameState) : GameState :=
  if ¬ s.colorsAssigned then s
  else
    let nextPlayerIdx := s.activePlayerIndex
    let nextPlayerColor :=
      ((getPlayer? s.players nextPlayerIdx).map (fun p => p.color)).getD UNKNOWN
    if allRevealedB s.board ∧ ¬ hasPieceOnBoardB s.board nextPlayerColor then
      { s with isGameOver := true, winner := some (1 - nextPlayerIdx) }
    else if (getLegalActions s nextPlayerIdx).isEmpty then
      { s with isGameOver := true, winner := some (1 - nextPlayerIdx) }
    else s

/-- The common tail of `applyAction` after the action switch:
`newState.lastAction = action`, the early return while chaining, and the
win-condition block. -/
def finishTurn (s : GameState) (action : PlayerAction) : GameState :=
  let s1 := { s with lastAction := some action }
  if s1.pendingChainCapture.isSome then s1 else winCheck s1

/-- The post-interaction chain logic of the MOVE case (source lines
"Post Move: Chain Logic"), followed by the common tail. -/
def movePost (s : GameState) (action : PlayerAction) (player : PlayerState)
    (t : Location) (moveIsInteraction : Bool) : GameState :=
  if moveIsInteraction && hasChainOptions s t player.color then
    finishTurn { s with pendingChainCapture := some t, lastAction := some action } action
  else
    finishTurn
      { s with pendingChainCapture := none,
               activePlayerIndex := 1 - action.playerId,
               turnCount := s.turnCount + 1 } action

/-- The FLIP case of `applyAction`.  The board row is read without any
bounds validation, so a missing row is a crash (`none`). -/
def flipCase (newState : GameState) (action : PlayerAction) (player : PlayerState) :
    Option GameState :=
  match action.flipLocation with
  | none => some (fail newState .missingFlipLocation)
  | some loc =>
    match jsIndex newState.board loc.row with
    | none => none
    | some rowl =>
      match (jsIndex rowl loc.col).join with
      | none => some (fail newState .emptyCell)
      | some stack =>
        match stack.pieces.getLast? with
        | none => some (fail newState .emptyCell)
        | some top =>
          if top.faceUp then some (fail newState .alreadyRevealed)
          else
            let newStack : PieceStack := ⟨stack.pieces.dropLast ++ [{ top with faceUp := true }]⟩
            let s1 := { newState with board := setCell newState.board loc (some newStack) }
            let s2 :=
              if ¬ s1.colorsAssigned then
                let otherColor := if top.color = RED then BLACK else RED
                let other := (getPlayer? s1.players (1 - action.playerId)).getD ⟨UNKNOWN, ⟨[]⟩⟩
                let ps1 := setPlayer s1.players (1 - action.playerId)
                  { other with color := otherColor }
                { s1 with players := setPlayer ps1 action.playerId { player with color := top.color },
                          colorsAssigned := true }
              else s1
            some (finishTurn
              { s2 with activePlayerIndex := 1 - action.playerId,
                        turnCount := s2.turnCount + 1 } action)

/-- The interaction matrix of the MOVE case (occupied destination:
capture, merge or retrieve), after the face-up check on the target. -/
def moveInteract (newState : GameState) (action : PlayerAction) (player : PlayerState)
    (f t : Location) (captureRes : CaptureResolution) (srcStack destStack : PieceStack)
    (topDest : PieceInstance) (baseType : PieceType) (pattern : MovePatternDetails) :
    Option GameState :=
  let isFriendly : Bool := topDest.color = player.color
  if captureRes = .TO_HAND then
    if !isFriendly && !canPieceCaptureTarget newState.board f t srcStack destStack then
      some (fail newState .captureFailed)
    else if !isFriendly && (baseType = CANNON ∧ pattern.screens > 1 : Bool) then
      some (fail newState .invalidCannonCapture)
    else
      let converted := destStack.pieces.map (fun p => { p with color := player.color })
      let player1 := { player with hand := ⟨player.hand.pieces ++ converted⟩ }
      let b2 := setCell (setCell newState.board t (some ⟨srcStack.pieces⟩)) f none
      let ps1 := setPlayer newState.players action.playerId player1
      some (movePost { newState with board := b2, players := ps1 } action player1 t true)
  else
    match canStackOn destStack.pieces srcStack.pieces isFriendly with
    | some r => some (fail newState (.cannotStack r))
    | none =>
      if !isFriendly && !canPieceCaptureTarget newState.board f t srcStack destStack then
        some (fail newState .captureFailed)
      else if !isFriendly && (baseType = CANNON ∧ pattern.screens > 1 : Bool) then
        some (fail newState .invalidCannonCapture)
      else
        let b2 :=
          setCell (setCell newState.board t (some ⟨destStack.pieces ++ srcStack.pieces⟩)) f none
        some (movePost { newState with board := b2 } action player t true)

/-- The MOVE case after the source/ownership validation: pattern check and
destination dispatch. -/
def moveResolve (newState : GameState) (action : PlayerAction) (player : PlayerState)
    (f t : Location) (captureRes : CaptureResolution) (srcStack : PieceStack)
    (destOpt : Option PieceStack) : Option GameState :=
  let baseType := getStackBaseType srcStack.pieces
  let pattern := getMovePatternDetails newState.board f t baseType
  if ¬ pattern.valid then some (fail newState (.invalidMovePattern baseType))
  else
    match destOpt with
    | none =>
      if newState.pendingChainCapture.isSome then some (fail newState .chainMustCapture)
      else if baseType = CANNON ∧ pattern.screens > 0 then
        some (fail newState .cannonNeedsTarget)
      else
        let b2 := setCell (setCell newState.board t (some ⟨srcStack.pieces⟩)) f none
        some (movePost { newState with board := b2 } action player t false)
    | some destStack =>
      match destStack.pieces.getLast? with
      | none => none
      | some topDest =>
        if ¬ topDest.faceUp then some (fail newState .cannotInteractHidden)
        else moveInteract newState action player f t captureRes srcStack destStack
          topDest baseType pattern

/-- The MOVE case of `applyAction`. -/
def moveCase (newState : GameState) (action : PlayerAction) (player : PlayerState) :
    Option GameState :=
  match action.fromLoc, action.toLoc with
  | some f, some t =>
    let captureRes := action.captureResolution.getD .TO_HAND
    if ¬ (isValidCoordinate f ∧ isValidCoordinate t) then some (fail newState .invalidCoords)
    else if f.row = t.row ∧ f.col = t.col then some (fail newState .moveToSelf)
    else
      match jsCellE newState.board f.row f.col with
      | none => none
      | some none => some (fail newState .noSource)
      | some (some srcStack) =>
        match srcStack.pieces.getLast? with
        | none => none
        | some movingPiece =>
          if ¬ movingPiece.faceUp then some (fail newState .cannotMoveHidden)
          else if newState.colorsAssigned ∧ movingPiece.color ≠ player.color then
            some (fail newState .notYourPiece)
          else
            match jsCellE newState.board t.row t.col with
            | none => none
            | some destOpt =>
              moveResolve newState action player f t captureRes srcStack destOpt
  | _, _ => some (fail newState .missingCoords)

/-- The hand filter of the DEPLOY case: removes the first `n` pieces of the
given type, returning (kept, taken) in order. -/
def takePieces : List PieceInstance → PieceType → Nat → List PieceInstance × List PieceInstance
  | [], _, _ => ([], [])
  | p :: rest, ty, n =>
    if 0 < n ∧ p.type = ty then
      let r := takePieces rest ty (n - 1)
      (r.1, p :: r.2)
    else
      let r := takePieces rest ty n
      (p :: r.1, r.2)

/-- The DEPLOY case of `applyAction`.  A `deployCount` of 0 is falsy in
JavaScript and hits the missing-params check. -/
def deployCase (newState : GameState) (action : PlayerAction) (player : PlayerState) :
    Option GameState :=
  if newState.pendingChainCapture.isSome then some (fail newState .cannotDeployDuringChain)
  else
    match action.deployTo, action.deployType, action.deployCount with
    | some deployTo, some deployType, some deployCount =>
      if deployCount = 0 then some (fail newState .missingDeployParams)
      else if deployCount < 1 then some (fail newState .deployCountTooSmall)
      else if ¬ isValidCoordinate deployTo then some (fail newState .invalidCoords)
      else
        let available := player.hand.pieces.countP (fun p => p.type = deployType)
        if (available : Int) < deployCount then
          some (fail newState (.notEnoughInHand deployType))
        else
          let kt := takePieces player.hand.pieces deployType deployCount.toNat
          match jsCellE newState.board deployTo.row deployTo.col with
          | none => none
          | some none =>
            let s1 :=
              { newState with
                board := setCell newState.board deployTo (some ⟨kt.2⟩),
                players := setPlayer newState.players action.playerId
                  { player with hand := ⟨kt.1⟩ } }
            some (finishTurn
              { s1 with activePlayerIndex := 1 - action.playerId,
                        turnCount := s1.turnCount + 1 } action)
          | some (some targetStack) =>
            match targetStack.pieces.getLast? with
            | none => none
            | some top =>
              let restored := setPlayer newState.players action.playerId
                { player with hand := ⟨kt.1 ++ kt.2⟩ }
              if ¬ top.faceUp then
                some (fail { newState with players := restored } .cannotDeployOnHidden)
              else if top.color ≠ player.color then
                some (fail { newState with players := restored } .cannotDeployOnEnemy)
              else
                match canStackOn targetStack.pieces kt.2 true with
                | some r =>
                  some (fail { newState with players := restored } (.deployFailed r))
                | none =>
                  let s1 :=
                    { newState with
                      board := setCell newState.board deployTo (some ⟨targetStack.pieces ++ kt.2⟩),
                      players := setPlayer newState.players action.playerId
                        { player with hand := ⟨kt.1⟩ } }
                  some (finishTurn
                    { s1 with activePlayerIndex := 1 - action.playerId,
                              turnCount := s1.turnCount + 1 } action)
    | _, _, _ => some (fail newState .missingDeployParams)

/-- The RETRIEVE case of `applyAction`.  As in FLIP, the board access is
not bounds-validated (missing row is a crash). -/
def retrieveCase (newState : GameState) (action : PlayerAction) (player : PlayerState) :
    Option GameState :=
  if newState.pendingChainCapture.isSome then some (fail newState .cannotRetrieveDuringChain)
  else
    match action.retrieveFrom, action.retrievePieceIds with
    | some retrieveFrom, some ids =>
      match jsCellE newState.board retrieveFrom.row retrieveFrom.col with
      | none => none
      | some none => some (fail newState .noStack)
      | some (some stack) =>
        match stack.pieces.getLast? with
        | none => none
        | some top =>
          if top.color ≠ player.color then some (fail newState .notYourStack)
          else if stack.pieces.length - ids.length < 1 then
            -- Nat subtraction agrees with the source's number subtraction
            -- here: both sides of `< 1` say `length ≤ ids.length`.
            some (fail newState .mustLeaveOne)
          else
            match ids.find? (fun id => ¬ stack.pieces.any (fun p => p.id = id)) with
            | some id => some (fail newState (.pieceNotInStack id))
            | none =>
              let kept := stack.pieces.filter (fun p => ¬ ids.contains p.id)
              let retrieved := stack.pieces.filter (fun p => ids.contains p.id)
              let s1 :=
                { newState with
                  board := setCell newState.board retrieveFrom (some ⟨kept⟩),
                  players := setPlayer newState.players action.playerId
                    { player with hand := ⟨player.hand.pieces ++ retrieved⟩ } }
              some (finishTurn
                { s1 with activePlayerIndex := 1 - action.playerId,
                          turnCount := s1.turnCount + 1 } action)
    | _, _ => some (fail newState .missingRetrieveParams)

/-- The action switch of `applyAction`.  A PASS reaching the switch (never
happens: the chain pre-check handles it) falls through with no mechanics,
as the JavaScript switch does. -/
def runMechanics (newState : GameState) (action : PlayerAction) (player : PlayerState) :
    Option GameState :=
  match action.type with
  | .FLIP => flipCase newState action player
  | .MOVE => moveCase newState action player
  | .DEPLOY => deployCase newState action player
  | .RETRIEVE => retrieveCase newState action player
  | .PASS => some (finishTurn newState action)

/-- gameEngine.ts `applyAction`.  `none` models a JavaScript runtime
exception; an out-of-range player index is modelled as an immediate crash
(the source reads `players[playerId]` as `undefined` and throws at its
first use). -/
def applyAction (state : GameState) (action : PlayerAction) : Option GameState :=
  let newState := { state with error := none }
  if newState.isGameOver then some (fail newState .gameOver)
  else if action.playerId ≠ newState.activePlayerIndex then some (fail newState .notYourTurn)
  else
    match getPlayer? newState.players action.playerId with
    | none => none
    | some player =>
      match newState.pendingChainCapture with
      | some pcc =>
        if action.type = .PASS then
          some { newState with pendingChainCapture := none,
                               activePlayerIndex := 1 - action.playerId,
                               turnCount := newState.turnCount + 1 }
        else if action.type ≠ .MOVE then some (fail newState .chainMustContinue)
        else
          match action.fromLoc with
          | none => some (fail newState .chainWrongPiece)
          | some f =>
            if f.row ≠ pcc.row ∨ f.col ≠ pcc.col then some (fail newState .chainWrongPiece)
            else runMechanics newState action player
      | none =>
        if action.type = .PASS then some (fail newState .cannotPassNotChaining)
        else runMechanics newState action player

/-- gameEngine.ts `initRandomGame`, with the shuffled deck supplied as a
parameter (the source builds it with `Math.random`); cell (r,c) receives
`deck[r*8+c]` when that index exists. -/
def initRandomGame (deck : List PieceInstance) : GameState :=
  { board :=
      (List.range 4).map fun r =>
        (List.range 8).map fun c =>
          match deck.get? (r * 8 + c) with
          | some p => some ⟨[p]⟩
          | none => none,
    players := (⟨UNKNOWN, ⟨[]⟩⟩, ⟨UNKNOWN, ⟨[]⟩⟩),
    activePlayerIndex := 0,
    colorsAssigned := false,
    turnCount := 0,
    isGameOver := false,
    winner := none,
    lastAction := none,
    error := none,
    pendingChainCapture := none }

/-! ## Basic facts -/

theorem getLast?_ne_nil {α : Type _} {l : List α} {a : α} (h : l.getLast? = some a) :
    l ≠ [] := by
  intro hnil; subst hnil; simp at h

/-! ## C5: stack-composition rules -/

/-- Normal form of `canStackOn` on a non-empty target with known tops. -/
theorem canStackOn_eq {target incoming : List PieceInstance} {tt ti : PieceInstance}
    (htt : target.getLast? = some tt) (hti : incoming.getLast? = some ti)
    (checkColor : Bool) :
    canStackOn target incoming checkColor =
      (if (checkColor && decide (tt.color ≠ ti.color)) = true then some .colorMismatch
       else
         match (if getStackBaseType target ≠ GENERAL then
             incoming.find? (fun q => ¬(q.type = getStackBaseType target ∨ q.type = GENERAL))
           else none) with
         | some p => some (.typeMismatch (getStackBaseType target) p.type)
         | none =>
           if (target ++ incoming).length > STACK_LIMITS (getStackBaseType (target ++ incoming))
           then some (.limitExceeded (getStackBaseType (target ++ incoming))
             (STACK_LIMITS (getStackBaseType (target ++ incoming))) (target ++ incoming).length)
           else none) := by
  have hne : target ≠ [] := getLast?_ne_nil htt
  unfold canStackOn
  simp only [List.isEmpty_eq_true, hne, if_false, htt, hti]

/-- C5: `canStackOn` is valid on an empty target; on a non-empty target it
is valid exactly when (i) under `checkColor` the two top pieces share a
color, (ii) for a non-General base every incoming piece is the base type or
a General (a General base accepts anything), and (iii) the combined length
is within the size limit keyed by the base type of the combined sequence
(Soldier 12, General 2, others 6); the first failing check's reason is the
one reported. -/
theorem canStackOn_spec (target incoming : List PieceInstance) (checkColor : Bool)
    (tt ti : PieceInstance)
    (htt : target.getLast? = some tt) (hti : incoming.getLast? = some ti) :
    (canStackOn [] incoming checkColor = none) ∧
    (canStackOn target incoming checkColor = none ↔
      ((checkColor = true → tt.color = ti.color) ∧
       (getStackBaseType target ≠ GENERAL →
          ∀ p ∈ incoming, p.type = getStackBaseType target ∨ p.type = GENERAL) ∧
       (target ++ incoming).length ≤ STACK_LIMITS (getStackBaseType (target ++ incoming)))) ∧
    (checkColor = true → tt.color ≠ ti.color →
      canStackOn target incoming checkColor = some .colorMismatch) ∧
    (∀ p, (checkColor = true → tt.color = ti.color) →
      incoming.find? (fun q => ¬(q.type = getStackBaseType target ∨ q.type = GENERAL)) = some p →
      getStackBaseType target ≠ GENERAL →
      canStackOn target incoming checkColor =
        some (.typeMismatch (getStackBaseType target) p.type)) ∧
    ((checkColor = true → tt.color = ti.color) →
      (getStackBaseType target ≠ GENERAL →
        ∀ p ∈ incoming, p.type = getStackBaseType target ∨ p.type = GENERAL) →
      (target ++ incoming).length > STACK_LIMITS (getStackBaseType (target ++ incoming)) →
      canStackOn target incoming checkColor =
        some (.limitExceeded (getStackBaseType (target ++ incoming))
          (STACK_LIMITS (getStackBaseType (target ++ incoming)))
          (target ++ incoming).length)) ∧
    (STACK_LIMITS SOLDIER = 12 ∧ STACK_LIMITS GENERAL = 2 ∧
      ∀ ty, ty ≠ SOLDIER → ty ≠ GENERAL → STACK_LIMITS ty = 6) := by
  rw [canStackOn_eq htt hti]
  have hfind_none_iff :
      (incoming.find? (fun q => ¬(q.type = getStackBaseType target ∨ q.type = GENERAL)) = none) ↔
        (∀ p ∈ incoming, p.type = getStackBaseType target ∨ p.type = GENERAL) := by
    rw [List.find?_eq_none]
    constructor
    · intro h p hp
      have := h p hp
      simp only [decide_not, Bool.not_eq_true', decide_eq_false_iff_not, not_not] at this
      exact this
    · intro h p hp
      simp only [decide_not, Bool.not_eq_true', decide_eq_false_iff_not, not_not]
      exact h p hp
  refine ⟨by simp [canStackOn], ?_, ?_, ?_, ?_,
    ⟨rfl, rfl, by intro ty h1 h2; cases ty <;> simp_all [STACK_LIMITS]⟩⟩
  · -- validity characterization
    by_cases hcol : (checkColor && decide (tt.color ≠ ti.color)) = true
    · rw [if_pos hcol]
      simp only [Bool.and_eq_true, decide_eq_true_eq] at hcol
      constructor
      · intro h; exact Option.noConfusion h
      · rintro ⟨hc, -, -⟩
        exact absurd (hc hcol.1) hcol.2
    · rw [if_neg hcol]
      have hcOK : checkColor = true → tt.color = ti.color := by
        intro hc
        by_contra hne'
        exact hcol (by simp [hc, hne'])
      by_cases hbase : getStackBaseType target = GENERAL
      · simp only [hbase, ne_eq, not_true_eq_false, if_false]
        constructor
        · intro h
          refine ⟨hcOK, fun hb => hb.elim, ?_⟩
          by_contra hlen
          rw [if_pos (by omega)] at h
          exact Option.noConfusion h
        · rintro ⟨-, -, hlen⟩
          rw [if_neg (by omega)]
      · rw [if_pos hbase]
        rcases hfound : incoming.find? (fun q => ¬(q.type = getStackBaseType target ∨ q.type = GENERAL)) with _ | q
        · rw [hfound]
          rw [hfind_none_iff] at hfound
          constructor
          · intro h
            refine ⟨hcOK, fun _ => hfound, ?_⟩
            by_contra hlen
            rw [if_pos (by omega)] at h
            exact Option.noConfusion h
          · rintro ⟨-, -, hlen⟩
            rw [if_neg (by omega)]
        · rw [hfound]
          constructor
          · intro h; exact Option.noConfusion h
          · rintro ⟨-, hty, -⟩
            have := hty hbase
            have hq := List.find?_some hfound
            have hqmem := List.mem_of_find?_eq_some hfound
            have := this q hqmem
            simp only [decide_not, Bool.not_eq_true', decide_eq_false_iff_not] at hq
            exact absurd this hq
  · -- color mismatch first
    intro hcc hne'
    rw [if_pos (by simp [hcc, hne'])]
  · -- type mismatch second
    intro p hcOK hfound hbase
    rw [if_neg ?_, if_pos hbase, hfound]
    rcases hc : checkColor with _ | _
    · simp
    · simp [hcOK hc]
  · -- limit third
    intro hcOK hty hlen
    have hfind : (if getStackBaseType target ≠ GENERAL then
        incoming.find? (fun q => ¬(q.type = getStackBaseType target ∨ q.type = GENERAL))
      else none) = none := by
      by_cases hbase : getStackBaseType target = GENERAL
      · simp [hbase]
      · rw [if_pos hbase, hfind_none_iff]
        exact hty hbase
    rw [if_neg ?_, hfind, if_pos hlen]
    rcases hc : checkColor with _ | _
    · simp
    · simp [hcOK hc]

/-- Witness for C5 at a concrete input. -/
theorem canStackOn_spec_witness :
    canStackOn [⟨"t", SOLDIER, RED, true⟩] [⟨"i", SOLDIER, RED, true⟩] true = none := by
  have h := canStackOn_spec [⟨"t", SOLDIER, RED, true⟩] [⟨"i", SOLDIER, RED, true⟩] true
    ⟨"t", SOLDIER, RED, true⟩ ⟨"i", SOLDIER, RED, true⟩ (by decide) (by decide)
  exact h.2.1.mpr (by decide)

/-! ## Reduction helpers for `applyAction` -/

/-- When the pre-checks pass (game not over, correct turn, no pending
chain, not a PASS), `applyAction` runs the action switch. -/
theorem applyAction_run {state : GameState} {action : PlayerAction} {player : PlayerState}
    (hgo : state.isGameOver = false)
    (hturn : action.playerId = state.activePlayerIndex)
    (hp : getPlayer? state.players action.playerId = some player)
    (hchain : state.pendingChainCapture = none)
    (hpass : action.type ≠ .PASS) :
    applyAction state action = runMechanics { state with error := none } action player := by
  unfold applyAction
  simp only [hgo, Bool.false_eq_true, if_false, hturn, ne_eq, not_true_eq_false,
    if_neg (fun h : ¬ state.activePlayerIndex = state.activePlayerIndex => h rfl)]
  rw [show getPlayer? state.players state.activePlayerIndex = some player from hturn ▸ hp]
  simp only [hchain, hpass, if_neg (fun h : action.type = .PASS => hpass h)]
  exact if_neg (fun h : False => h)

/-- Chain-mode analogue: a MOVE from the pending-chain cell reaches the
action switch. -/
theorem applyAction_runChain {state : GameState} {action : PlayerAction} {player : PlayerState}
    {pcc f : Location}
    (hgo : state.isGameOver = false)
    (hturn : action.playerId = state.activePlayerIndex)
    (hp : getPlayer? state.players action.playerId = some player)
    (hchain : state.pendingChainCapture = some pcc)
    (hty : action.type = .MOVE)
    (hf : action.fromLoc = some f)
    (hrow : f.row = pcc.row) (hcol : f.col = pcc.col) :
    applyAction state action = runMechanics { state with error := none } action player := by
  unfold applyAction
  simp only [hgo, Bool.false_eq_true, if_false, hturn, ne_eq, not_true_eq_false,
    if_neg (fun h : ¬ state.activePlayerIndex = state.activePlayerIndex => h rfl)]
  rw [show getPlayer? state.players state.activePlayerIndex = some player from hturn ▸ hp]
  simp only [hchain, hty, hf, reduceCtorEq, if_false, not_false_eq_true, if_true,
    if_neg (show ¬ (f.row ≠ pcc.row ∨ f.col ≠ pcc.col) by simp [hrow, hcol])]
  simp

/-! ## C6: movement geometry -/

/-- C6: the movement pattern is valid exactly as specified per base type
(Horse: one diagonal step; Chariot: shared row/column with 0 screens;
Cannon: shared row/column with 0 or 1 screens; General/Advisor/Elephant/
Soldier: Manhattan distance 1), and the geometry check runs before any
interaction logic: an invalid pattern is rejected with the geometry error
no matter what the destination cell holds. -/
theorem move_pattern_spec :
    (∀ (board : Board) (f t : Location),
      ((getMovePatternDetails board f t HORSE).valid = true ↔
        (t.row - f.row).natAbs = 1 ∧ (t.col - f.col).natAbs = 1) ∧
      ((getMovePatternDetails board f t CHARIOT).valid = true ↔
        (f.row = t.row ∨ f.col = t.col) ∧ countPiecesBetween board f t = 0) ∧
      ((getMovePatternDetails board f t CANNON).valid = true ↔
        (f.row = t.row ∨ f.col = t.col) ∧
          (countPiecesBetween board f t = 0 ∨ countPiecesBetween board f t = 1)) ∧
      (∀ ty, ty = GENERAL ∨ ty = ADVISOR ∨ ty = ELEPHANT ∨ ty = SOLDIER →
        ((getMovePatternDetails board f t ty).valid = true ↔
          (t.row - f.row).natAbs + (t.col - f.col).natAbs = 1))) ∧
    (∀ (state : GameState) (action : PlayerAction) (player : PlayerState)
       (f t : Location) (srcStack : PieceStack) (movingPiece : PieceInstance)
       (destOpt : Option PieceStack),
      state.isGameOver = false →
      action.playerId = state.activePlayerIndex →
      getPlayer? state.players action.playerId = some player →
      state.pendingChainCapture = none →
      action.type = .MOVE →
      action.fromLoc = some f → action.toLoc = some t →
      isValidCoordinate f = true → isValidCoordinate t = true →
      ¬ (f.row = t.row ∧ f.col = t.col) →
      jsCellE state.board f.row f.col = some (some srcStack) →
      srcStack.pieces.getLast? = some movingPiece →
      movingPiece.faceUp = true →
      ¬ (state.colorsAssigned = true ∧ movingPiece.color ≠ player.color) →
      jsCellE state.board t.row t.col = some destOpt →
      (getMovePatternDetails state.board f t (getStackBaseType srcStack.pieces)).valid = false →
      applyAction state action =
        some (fail { state with error := none }
          (.invalidMovePattern (getStackBaseType srcStack.pieces)))) := by
  constructor
  · intro board f t
    refine ⟨?_, ?_, ?_, ?_⟩
    · simp [getMovePatternDetails]
    · by_cases hline : f.row = t.row ∨ f.col = t.col
      · simp [getMovePatternDetails, hline]
      · simp [getMovePatternDetails, hline]
    · by_cases hline : f.row = t.row ∨ f.col = t.col
      · simp [getMovePatternDetails, hline]
      · simp [getMovePatternDetails, hline]
    · rintro ty (rfl | rfl | rfl | rfl) <;> simp [getMovePatternDetails]
  · intro state action player f t srcStack movingPiece destOpt
      hgo hturn hp hchain hty hf ht hvf hvt hself hsrc hlast hface hown hdest hpat
    rw [applyAction_run hgo hturn hp hchain (by simp [hty])]
    unfold runMechanics
    unfold moveCase
    simp only [hty, hf, ht]
    simp only [hvf, hvt, and_self, not_true_eq_false, if_neg (fun h : False => h)]
    rw [if_neg hself]
    simp only [hsrc, hlast]
    simp only [hface, not_true_eq_false, if_neg (fun h : False => h)]
    rw [if_neg hown]
    simp only [hdest]
    unfold moveResolve
    simp only [hpat, Bool.false_eq_true, not_false_eq_true, if_true]

/-- Witness for C6 at concrete inputs: the Horse clause at a one-step
diagonal, and the precedence clause on a concrete state where a Horse
attempts an orthogonal step onto an occupied cell. -/
theorem move_pattern_spec_witness :
    ((getMovePatternDetails (List.replicate 4 (List.replicate 8 none)) ⟨0, 0⟩ ⟨1, 1⟩
        HORSE).valid = true) ∧
    (applyAction
        { board :=
            setCell (setCell (List.replicate 4 (List.replicate 8 none)) ⟨0, 0⟩
                (some ⟨[⟨"h", HORSE, RED, true⟩]⟩)) ⟨0, 1⟩
              (some ⟨[⟨"s", SOLDIER, BLACK, true⟩]⟩),
          players := (⟨RED, ⟨[]⟩⟩, ⟨BLACK, ⟨[]⟩⟩),
          activePlayerIndex := 0, colorsAssigned := true, turnCount := 0,
          isGameOver := false, winner := none, lastAction := none, error := none,
          pendingChainCapture := none }
        { type := .MOVE, playerId := 0, fromLoc := some ⟨0, 0⟩, toLoc := some ⟨0, 1⟩ } =
      some (fail
        { board :=
            setCell (setCell (List.replicate 4 (List.replicate 8 none)) ⟨0, 0⟩
                (some ⟨[⟨"h", HORSE, RED, true⟩]⟩)) ⟨0, 1⟩
              (some ⟨[⟨"s", SOLDIER, BLACK, true⟩]⟩),
          players := (⟨RED, ⟨[]⟩⟩, ⟨BLACK, ⟨[]⟩⟩),
          activePlayerIndex := 0, colorsAssigned := true, turnCount := 0,
          isGameOver := false, winner := none, lastAction := none, error := none,
          pendingChainCapture := none } (.invalidMovePattern HORSE))) := by
  constructor
  · exact ((move_pattern_spec.1 (List.replicate 4 (List.replicate 8 none)) ⟨0, 0⟩
      ⟨1, 1⟩).1).mpr (by decide)
  · exact move_pattern_spec.2 _ _ ⟨RED, ⟨[]⟩⟩ ⟨0, 0⟩ ⟨0, 1⟩ ⟨[⟨"h", HORSE, RED, true⟩]⟩
      ⟨"h", HORSE, RED, true⟩ (some ⟨[⟨"s", SOLDIER, BLACK, true⟩]⟩)
      rfl rfl rfl rfl rfl rfl rfl (by decide) (by decide) (by decide)
      (by decide) (by decide) rfl (by decide) (by decide) (by decide)


/-! ## C1: capture eligibility -/

/-- Modelled from the spec: the weight-first, rank-on-ties capture
eligibility decision of the interaction matrix, with the Cannon-jump
exception taking precedence over the two rank-based exceptions at equal
weight ("eligible on equal weight regardless of rank"). -/
def captureEligibleSpec (atkWeight defWeight : Nat) (atkTop defTop : PieceType)
    (cannonJump : Bool) : Bool :=
  if atkWeight > defWeight then true
  else if atkWeight < defWeight then false
  else if cannonJump then true
  else if atkTop = SOLDIER ∧ defTop = GENERAL then true
  else if atkTop = GENERAL ∧ defTop = SOLDIER then false
  else PIECE_RANKS atkTop ≥ PIECE_RANKS defTop

/-- C1: against an enemy face-up stack, `canPieceCaptureTarget` decides
exactly by pattern validity together with the weight-first / rank-on-ties
rule (Soldier beats General, General never takes Soldier, a Cannon 1-screen
jump is eligible regardless of rank). -/
theorem capture_eligibility_spec (board : Board) (f t : Location)
    (atk dfd : PieceStack) (atkTop defTop : PieceInstance)
    (hatk : atk.pieces.getLast? = some atkTop)
    (hdef : dfd.pieces.getLast? = some defTop)
    (_hface : defTop.faceUp = true)
    (henemy : atkTop.color ≠ defTop.color) :
    canPieceCaptureTarget board f t atk dfd =
      ((getMovePatternDetails board f t (getStackBaseType atk.pieces)).valid &&
        captureEligibleSpec atk.pieces.length dfd.pieces.length atkTop.type defTop.type
          (decide (getStackBaseType atk.pieces = CANNON ∧
            (getMovePatternDetails board f t (getStackBaseType atk.pieces)).screens = 1))) := by
  unfold canPieceCaptureTarget captureEligibleSpec
  simp only [getTopPiece, getStackWeight]
  rw [hatk, hdef]
  by_cases hv : (getMovePatternDetails board f t (getStackBaseType atk.pieces)).valid = true
  · simp only [hv, Bool.not_true, Bool.false_eq_true, if_false, Bool.true_and]
    rw [if_neg henemy]
    by_cases hgtw : atk.pieces.length > dfd.pieces.length
    · rw [if_pos hgtw, if_pos hgtw]
    · rw [if_neg hgtw, if_neg hgtw]
      by_cases hltw : atk.pieces.length < dfd.pieces.length
      · rw [if_pos hltw, if_pos hltw]
      · rw [if_neg hltw, if_neg hltw]
        by_cases hcj : getStackBaseType atk.pieces = CANNON ∧
            (getMovePatternDetails board f t (getStackBaseType atk.pieces)).screens = 1
        · rw [if_pos hcj, if_pos (decide_eq_true hcj)]
        · rw [if_neg hcj, if_neg (show ¬ (decide (getStackBaseType atk.pieces = CANNON ∧
            (getMovePatternDetails board f t (getStackBaseType atk.pieces)).screens = 1) = true) by
              simp only [decide_eq_true_eq]; exact hcj)]
  · simp only [Bool.not_eq_true] at hv
    simp [hv]

/-- Witness for C1: a 1-piece Soldier stack attacking an adjacent 1-piece
enemy General (equal weight): eligible by the Soldier exception. -/
theorem capture_eligibility_spec_witness :
    canPieceCaptureTarget (List.replicate 4 (List.replicate 8 none)) ⟨0, 0⟩ ⟨0, 1⟩
        ⟨[⟨"s", SOLDIER, RED, true⟩]⟩ ⟨[⟨"g", GENERAL, BLACK, true⟩]⟩ = true ∧
    canPieceCaptureTarget (List.replicate 4 (List.replicate 8 none)) ⟨0, 0⟩ ⟨0, 1⟩
        ⟨[⟨"s", SOLDIER, RED, true⟩]⟩ ⟨[⟨"g", GENERAL, BLACK, true⟩]⟩ =
      ((getMovePatternDetails (List.replicate 4 (List.replicate 8 none)) ⟨0, 0⟩ ⟨0, 1⟩
          SOLDIER).valid &&
        captureEligibleSpec 1 1 SOLDIER GENERAL false) := by
  have h := capture_eligibility_spec (List.replicate 4 (List.replicate 8 none)) ⟨0, 0⟩ ⟨0, 1⟩
    ⟨[⟨"s", SOLDIER, RED, true⟩]⟩ ⟨[⟨"g", GENERAL, BLACK, true⟩]⟩
    ⟨"s", SOLDIER, RED, true⟩ ⟨"g", GENERAL, BLACK, true⟩ (by decide) (by decide)
    (by decide) (by decide)
  exact ⟨by decide, by rw [h]; decide⟩

/-! ## C10: FLIP bounds are unchecked -/

theorem jsIndex_eq_none_iff {α : Type _} {l : List α} {i : Int} :
    jsIndex l i = none ↔ i < 0 ∨ (l.length : Int) ≤ i := by
  unfold jsIndex
  by_cases h : i < 0
  · simp [h]
  · rw [if_neg h, List.get?_eq_none]
    omega

/-- C10: the FLIP handler performs no bounds validation: with an
out-of-range row the unguarded `board[row][col]` access throws (modelled
`none`) instead of producing an error state, while an in-range row with an
out-of-range column falls into the `!stack` test and yields the
"Empty cell" error rather than a coordinate error. -/
theorem flip_bounds_unchecked (state : GameState) (action : PlayerAction)
    (player : PlayerState) (loc : Location)
    (hboard : state.board.length = 4)
    (hrows : ∀ rowl ∈ state.board, rowl.length = 8)
    (hgo : state.isGameOver = false)
    (hturn : action.playerId = state.activePlayerIndex)
    (hp : getPlayer? state.players action.playerId = some player)
    (hchain : state.pendingChainCapture = none)
    (hty : action.type = .FLIP)
    (hloc : action.flipLocation = some loc) :
    (¬ (0 ≤ loc.row ∧ loc.row < 4) → applyAction state action = none) ∧
    ((0 ≤ loc.row ∧ loc.row < 4) → ¬ (0 ≤ loc.col ∧ loc.col < 8) →
      applyAction state action = some (fail { state with error := none } .emptyCell)) := by
  have hrun : applyAction state action = runMechanics { state with error := none } action player :=
    applyAction_run hgo hturn hp hchain (by simp [hty])
  constructor
  · intro hout
    rw [hrun]
    unfold runMechanics
    simp only [hty]
    unfold flipCase
    simp only [hloc]
    rw [show jsIndex state.board loc.row = none by
      rw [jsIndex_eq_none_iff]
      rcases (not_and_or.mp hout) with h | h
      · left; omega
      · right; rw [hboard]; omega]
  · intro hin hout
    rw [hrun]
    unfold runMechanics
    simp only [hty]
    unfold flipCase
    simp only [hloc]
    have hlt : loc.row.toNat < state.board.length := by omega
    rcases hget : state.board.get? loc.row.toNat with _ | rowl
    · rw [List.get?_eq_none] at hget; omega
    · have hrowmem : rowl ∈ state.board := by
        have := List.get?_mem hget
        exact this
      have hrowlen := hrows rowl hrowmem
      have h1 : jsIndex state.board loc.row = some rowl := by
        unfold jsIndex
        rw [if_neg (by omega)]
        exact hget
      have h2 : jsIndex rowl loc.col = none := by
        rw [jsIndex_eq_none_iff]
        rcases (not_and_or.mp hout) with h | h
        · left; omega
        · right; rw [hrowlen]; omega
      simp only [h1, h2, Option.join]
      rfl

/-- Witness for C10 on a concrete one-piece board: row 5 crashes, column 9
gives the "Empty cell" error. -/
theorem flip_bounds_unchecked_witness :
    (applyAction
        { board :=
            setCell (List.replicate 4 (List.replicate 8 none)) ⟨0, 0⟩
              (some ⟨[⟨"x", SOLDIER, RED, false⟩]⟩),
          players := (⟨UNKNOWN, ⟨[]⟩⟩, ⟨UNKNOWN, ⟨[]⟩⟩),
          activePlayerIndex := 0, colorsAssigned := false, turnCount := 0,
          isGameOver := false, winner := none, lastAction := none, error := none,
          pendingChainCapture := none }
        { type := .FLIP, playerId := 0, flipLocation := some ⟨5, 0⟩ } = none) ∧
    ((applyAction
        { board :=
            setCell (List.replicate 4 (List.replicate 8 none)) ⟨0, 0⟩
              (some ⟨[⟨"x", SOLDIER, RED, false⟩]⟩),
          players := (⟨UNKNOWN, ⟨[]⟩⟩, ⟨UNKNOWN, ⟨[]⟩⟩),
          activePlayerIndex := 0, colorsAssigned := false, turnCount := 0,
          isGameOver := false, winner := none, lastAction := none, error := none,
          pendingChainCapture := none }
        { type := .FLIP, playerId := 0, flipLocation := some ⟨0, 9⟩ }).map
      (fun s => s.error) = some (some .emptyCell)) := by
  constructor
  · exact (flip_bounds_unchecked _ _ ⟨UNKNOWN, ⟨[]⟩⟩ ⟨5, 0⟩ (by decide) (by decide)
      (by decide) (by decide) (by decide) (by decide) (by decide) (by decide)).1 (by decide)
  · rw [(flip_bounds_unchecked _ _ ⟨UNKNOWN, ⟨[]⟩⟩ ⟨0, 9⟩ (by decide) (by decide)
      (by decide) (by decide) (by decide) (by decide) (by decide) (by decide)).2
      (by decide) (by decide)]
    rfl


/-! ## Structural lemmas about the turn tail -/

theorem winCheck_fields (s : GameState) :
    (winCheck s).board = s.board ∧ (winCheck s).players = s.players ∧
    (winCheck s).activePlayerIndex = s.activePlayerIndex ∧
    (winCheck s).turnCount = s.turnCount ∧
    (winCheck s).pendingChainCapture = s.pendingChainCapture ∧
    (winCheck s).error = s.error ∧ (winCheck s).lastAction = s.lastAction ∧
    (winCheck s).colorsAssigned = s.colorsAssigned := by
  unfold winCheck
  dsimp only
  split
  · simp
  · split
    · simp
    · split <;> simp

theorem finishTurn_fields (s : GameState) (a : PlayerAction) :
    (finishTurn s a).board = s.board ∧ (finishTurn s a).players = s.players ∧
    (finishTurn s a).activePlayerIndex = s.activePlayerIndex ∧
    (finishTurn s a).turnCount = s.turnCount ∧
    (finishTurn s a).pendingChainCapture = s.pendingChainCapture ∧
    (finishTurn s a).error = s.error ∧
    (finishTurn s a).lastAction = some a ∧
    (finishTurn s a).colorsAssigned = s.colorsAssigned := by
  unfold finishTurn
  dsimp only
  split
  · simp
  · have h := winCheck_fields { s with lastAction := some a }
    refine ⟨h.1, h.2.1, h.2.2.1, h.2.2.2.1, h.2.2.2.2.1, h.2.2.2.2.2.1, ?_,
      h.2.2.2.2.2.2.2⟩
    rw [h.2.2.2.2.2.2.1]

theorem movePost_error (s : GameState) (a : PlayerAction) (p : PlayerState)
    (t : Location) (mi : Bool) : (movePost s a p t mi).error = s.error := by
  unfold movePost
  split
  · exact (finishTurn_fields _ _).2.2.2.2.2.1
  · exact (finishTurn_fields _ _).2.2.2.2.2.1

/-! ## Well-formedness of boards -/

/-- The board is the 4×8 grid the initializer builds. -/
def boardShape (b : Board) : Prop :=
  b.length = 4 ∧ ∀ rowl ∈ b, rowl.length = 8

/-- No cell holds an empty stack (an emptied stack is removed, never kept). -/
def stacksNonempty (b : Board) : Prop :=
  ∀ rowl ∈ b, ∀ cell ∈ rowl, ∀ st : PieceStack, cell = some st → st.pieces ≠ []

theorem jsIndex_eq_some_iff {α : Type _} {l : List α} {i : Int} {a : α} :
    jsIndex l i = some a ↔ 0 ≤ i ∧ l.get? i.toNat = some a := by
  unfold jsIndex
  by_cases h : i < 0
  · rw [if_pos h]
    constructor
    · intro hc; exact Option.noConfusion hc
    · rintro ⟨h0, -⟩; omega
  · rw [if_neg h]
    simp only [iff_and_self]
    intro _; omega

theorem jsCellE_isSome_of_shape {b : Board} {loc : Location}
    (hshape : boardShape b) (hv : isValidCoordinate loc = true) :
    ∃ cell, jsCellE b loc.row loc.col = some cell := by
  obtain ⟨hlen, _⟩ := hshape
  simp only [isValidCoordinate, Bool.decide_and, Bool.and_eq_true, decide_eq_true_eq] at hv
  have hlt : loc.row.toNat < b.length := by omega
  rcases hget : b.get? loc.row.toNat with _ | rowl
  · rw [List.get?_eq_none] at hget; omega
  · refine ⟨(jsIndex rowl loc.col).join, ?_⟩
    unfold jsCellE
    rw [show jsIndex b loc.row = some rowl from
      jsIndex_eq_some_iff.mpr ⟨by omega, hget⟩]
    rfl

theorem stack_nonempty_of_jsCellE {b : Board} {r c : Int} {st : PieceStack}
    (hne : stacksNonempty b) (h : jsCellE b r c = some (some st)) :
    st.pieces ≠ [] := by
  unfold jsCellE at h
  rcases hrow : jsIndex b r with _ | rowl
  · rw [hrow] at h; exact Option.noConfusion h
  · rw [hrow] at h
    have hcell : (jsIndex rowl c).join = some st := Option.some_injective _ h
    have hrowmem : rowl ∈ b := by
      rcases jsIndex_eq_some_iff.mp hrow with ⟨-, hget⟩
      exact List.get?_mem hget
    rcases hc : jsIndex rowl c with _ | cell
    · rw [hc] at hcell; exact Option.noConfusion hcell
    · rw [hc] at hcell
      have hcellmem : cell ∈ rowl := by
        rcases jsIndex_eq_some_iff.mp hc with ⟨-, hget⟩
        exact List.get?_mem hget
      have : cell = some st := by simpa using hcell
      exact hne rowl hrowmem cell hcellmem st this

theorem getLast?_isSome_of_ne_nil {α : Type _} {l : List α} (h : l ≠ []) :
    ∃ a, l.getLast? = some a := by
  rcases hl : l.getLast? with _ | a
  · rw [List.getLast?_eq_none_iff] at hl
    exact absurd hl h
  · exact ⟨a, rfl⟩

/-! ## takePieces bookkeeping -/

theorem takePieces_perm (l : List PieceInstance) (ty : PieceType) (n : Nat) :
    List.Perm ((takePieces l ty n).1 ++ (takePieces l ty n).2) l := by
  induction l generalizing n with
  | nil => simp [takePieces]
  | cons p rest ih =>
    unfold takePieces
    by_cases h : 0 < n ∧ p.type = ty
    · rw [if_pos h]
      simp only
      exact (List.perm_middle).trans (List.Perm.cons p (ih (n - 1)))
    · rw [if_neg h]
      simp only [List.cons_append]
      exact List.Perm.cons p (ih n)

theorem takePieces_length (l : List PieceInstance) (ty : PieceType) (n : Nat) :
    (takePieces l ty n).1.length + (takePieces l ty n).2.length = l.length := by
  have := (takePieces_perm l ty n).length_eq
  simpa using this


theorem finishTurn_error (s : GameState) (a : PlayerAction) :
    (finishTurn s a).error = s.error :=
  (finishTurn_fields s a).2.2.2.2.2.1

/-! ## Rejection shapes: a rejected action only sets the error field
(except that a rejected DEPLOY may have reassembled the acting player's
hand). -/

theorem flipCase_rejected {s : GameState} {a : PlayerAction} {p : PlayerState}
    {st' : GameState} {e : GameError} (hs : s.error = none)
    (h : flipCase s a p = some st') (herr : st'.error = some e) :
    st' = fail s e := by
  unfold flipCase at h
  split at h
  · cases h; injection herr with he; subst he; rfl
  · split at h
    · exact Option.noConfusion h
    · split at h
      · cases h; injection herr with he; subst he; rfl
      · split at h
        · cases h; injection herr with he; subst he; rfl
        · split at h
          · cases h; injection herr with he; subst he; rfl
          · cases h
            exfalso
            rw [finishTurn_error] at herr
            dsimp only at herr
            split at herr <;> (dsimp only at herr; rw [hs] at herr; exact Option.noConfusion herr)

theorem moveInteract_rejected {s : GameState} {a : PlayerAction} {p : PlayerState}
    {f t : Location} {cr : CaptureResolution} {src dst : PieceStack}
    {topDest : PieceInstance} {bt : PieceType} {pat : MovePatternDetails}
    {st' : GameState} {e : GameError} (hs : s.error = none)
    (h : moveInteract s a p f t cr src dst topDest bt pat = some st')
    (herr : st'.error = some e) :
    st' = fail s e := by
  unfold moveInteract at h
  dsimp only at h
  split at h
  · -- TO_HAND
    split at h
    · cases h; injection herr with he; subst he; rfl
    · split at h
      · cases h; injection herr with he; subst he; rfl
      · cases h
        exfalso
        rw [movePost_error] at herr
        dsimp only at herr
        rw [hs] at herr
        exact Option.noConfusion herr
  · -- STACK_IF_POSSIBLE
    split at h
    · cases h; injection herr with he; subst he; rfl
    · split at h
      · cases h; injection herr with he; subst he; rfl
      · split at h
        · cases h; injection herr with he; subst he; rfl
        · cases h
          exfalso
          rw [movePost_error] at herr
          dsimp only at herr
          rw [hs] at herr
          exact Option.noConfusion herr

theorem moveResolve_rejected {s : GameState} {a : PlayerAction} {p : PlayerState}
    {f t : Location} {cr : CaptureResolution} {src : PieceStack}
    {destOpt : Option PieceStack}
    {st' : GameState} {e : GameError} (hs : s.error = none)
    (h : moveResolve s a p f t cr src destOpt = some st')
    (herr : st'.error = some e) :
    st' = fail s e := by
  unfold moveResolve at h
  dsimp only at h
  split at h
  · cases h; injection herr with he; subst he; rfl
  · split at h
    · -- empty destination
      split at h
      · cases h; injection herr with he; subst he; rfl
      · split at h
        · cases h; injection herr with he; subst he; rfl
        · cases h
          exfalso
          rw [movePost_error] at herr
          dsimp only at herr
          rw [hs] at herr
          exact Option.noConfusion herr
    · -- occupied destination
      split at h
      · exact Option.noConfusion h
      · split at h
        · cases h; injection herr with he; subst he; rfl
        · exact moveInteract_rejected hs h herr

theorem moveCase_rejected {s : GameState} {a : PlayerAction} {p : PlayerState}
    {st' : GameState} {e : GameError} (hs : s.error = none)
    (h : moveCase s a p = some st') (herr : st'.error = some e) :
    st' = fail s e := by
  unfold moveCase at h
  dsimp only at h
  split at h
  · split at h
    · cases h; injection herr with he; subst he; rfl
    · split at h
      · cases h; injection herr with he; subst he; rfl
      · split at h
        · exact Option.noConfusion h
        · cases h; injection herr with he; subst he; rfl
        · split at h
          · exact Option.noConfusion h
          · split at h
            · cases h; injection herr with he; subst he; rfl
            · split at h
              · cases h; injection herr with he; subst he; rfl
              · split at h
                · exact Option.noConfusion h
                · exact moveResolve_rejected hs h herr
  · cases h; injection herr with he; subst he; rfl

theorem retrieveCase_rejected {s : GameState} {a : PlayerAction} {p : PlayerState}
    {st' : GameState} {e : GameError} (hs : s.error = none)
    (h : retrieveCase s a p = some st') (herr : st'.error = some e) :
    st' = fail s e := by
  unfold retrieveCase at h
  dsimp only at h
  split at h
  · cases h; injection herr with he; subst he; rfl
  · split at h
    · split at h
      · exact Option.noConfusion h
      · cases h; injection herr with he; subst he; rfl
      · split at h
        · exact Option.noConfusion h
        · split at h
          · cases h; injection herr with he; subst he; rfl
          · split at h
            · cases h; injection herr with he; subst he; rfl
            · split at h
              · cases h; injection herr with he; subst he; rfl
              · cases h
                exfalso
                rw [finishTurn_error] at herr
                dsimp only at herr
                rw [hs] at herr
                exact Option.noConfusion herr
    · cases h; injection herr with he; subst he; rfl

/-- The players array after a rejected DEPLOY put the removed pieces back
at the end of the acting player's hand. -/
def restoredPlayers (ps : PlayerState × PlayerState) (pid : Nat) (p : PlayerState)
    (ty : PieceType) (n : Nat) : PlayerState × PlayerState :=
  setPlayer ps pid
    { p with hand := ⟨(takePieces p.hand.pieces ty n).1 ++ (takePieces p.hand.pieces ty n).2⟩ }

theorem deployCase_rejected {s : GameState} {a : PlayerAction} {p : PlayerState}
    {st' : GameState} {e : GameError} (hs : s.error = none)
    (h : deployCase s a p = some st') (herr : st'.error = some e) :
    st' = fail s e ∨
    ∃ ty n, st' = fail { s with players := restoredPlayers s.players a.playerId p ty n } e := by
  unfold deployCase at h
  dsimp only at h
  split at h
  · left; cases h; injection herr with he; subst he; rfl
  · split at h
    · split at h
      · left; cases h; injection herr with he; subst he; rfl
      · split at h
        · left; cases h; injection herr with he; subst he; rfl
        · split at h
          · left; cases h; injection herr with he; subst he; rfl
          · split at h
            · left; cases h; injection herr with he; subst he; rfl
            · split at h
              · exact Option.noConfusion h
              · cases h
                exfalso
                rw [finishTurn_error] at herr
                dsimp only at herr
                rw [hs] at herr
                exact Option.noConfusion herr
              · split at h
                · exact Option.noConfusion h
                · split at h
                  · right
                    cases h
                    injection herr with he
                    subst he
                    exact ⟨_, _, rfl⟩
                  · split at h
                    · right
                      cases h
                      injection herr with he
                      subst he
                      exact ⟨_, _, rfl⟩
                    · split at h
                      · right
                        cases h
                        injection herr with he
                        subst he
                        exact ⟨_, _, rfl⟩
                      · cases h
                        exfalso
                        rw [finishTurn_error] at herr
                        dsimp only at herr
                        rw [hs] at herr
                        exact Option.noConfusion herr
    · left; cases h; injection herr with he; subst he; rfl


theorem runMechanics_rejected {s : GameState} {a : PlayerAction} {p : PlayerState}
    {st' : GameState} {e : GameError} (hs : s.error = none)
    (h : runMechanics s a p = some st') (herr : st'.error = some e) :
    st' = fail s e ∨
    (a.type = .DEPLOY ∧ ∃ ty n,
      st' = fail { s with players := restoredPlayers s.players a.playerId p ty n } e) := by
  unfold runMechanics at h
  split at h
  · exact Or.inl (flipCase_rejected hs h herr)
  · exact Or.inl (moveCase_rejected hs h herr)
  · rcases deployCase_rejected hs h herr with h1 | h1
    · exact Or.inl h1
    · rename_i hty
      exact Or.inr ⟨hty, h1⟩
  · exact Or.inl (retrieveCase_rejected hs h herr)
  · cases h
    exfalso
    rw [finishTurn_error, hs] at herr
    exact Option.noConfusion herr

/-- Master rejection shape: a rejected `applyAction` call returns the input
state with only the error set, except that a rejected DEPLOY may have
removed and re-appended hand pieces of the acting player. -/
theorem applyAction_rejected {st : GameState} {a : PlayerAction} {st' : GameState}
    {e : GameError}
    (happ : applyAction st a = some st') (herr : st'.error = some e) :
    st' = { st with error := some e } ∨
    (a.type = .DEPLOY ∧ ∃ p ty n, getPlayer? st.players a.playerId = some p ∧
      st' = { st with error := some e, players := restoredPlayers st.players a.playerId p ty n }) := by
  unfold applyAction at happ
  dsimp only at happ
  split at happ
  · left; cases happ; injection herr with he; subst he; rfl
  · split at happ
    · left; cases happ; injection herr with he; subst he; rfl
    · split at happ
      · exact Option.noConfusion happ
      · rename_i player hp
        split at happ
        · split at happ
          · cases happ
            exact absurd herr (by exact fun hc => Option.noConfusion hc)
          · split at happ
            · left; cases happ; injection herr with he; subst he; rfl
            · split at happ
              · left; cases happ; injection herr with he; subst he; rfl
              · split at happ
                · left; cases happ; injection herr with he; subst he; rfl
                · rcases runMechanics_rejected rfl happ herr with h1 | ⟨hty, ty, n, h1⟩
                  · left; rw [h1]; rfl
                  · right
                    exact ⟨hty, player, ty, n, hp, by rw [h1]; rfl⟩
        · split at happ
          · left; cases happ; injection herr with he; subst he; rfl
          · rcases runMechanics_rejected rfl happ herr with h1 | ⟨hty, ty, n, h1⟩
            · left; rw [h1]; rfl
            · right
              exact ⟨hty, player, ty, n, hp, by rw [h1]; rfl⟩


/-! ## Shared concrete sample states -/

def emptyBoard : Board := List.replicate 4 (List.replicate 8 none)

/-- A state whose acting player holds a Chariot behind a Soldier in hand,
with a hidden stack at (0,0). -/
def sampleDeployState : GameState :=
  { board := setCell emptyBoard ⟨0, 0⟩ (some ⟨[⟨"h", HORSE, RED, false⟩]⟩),
    players := (⟨RED, ⟨[⟨"x", CHARIOT, RED, true⟩, ⟨"y", SOLDIER, RED, true⟩]⟩⟩, ⟨BLACK, ⟨[]⟩⟩),
    activePlayerIndex := 0, colorsAssigned := true, turnCount := 0,
    isGameOver := false, winner := none, lastAction := none, error := none,
    pendingChainCapture := none }

def sampleDeployAction : PlayerAction :=
  { type := .DEPLOY, playerId := 0, deployTo := some ⟨0, 0⟩,
    deployType := some CHARIOT, deployCount := some 1 }

/-! ## C2: rejection purity -/

/-- C2 counterexample: this DEPLOY is rejected (deploying onto a hidden
stack), yet the returned state's acting-player hand is NOT identical to the
input hand — the removed Chariot was re-appended at the end, changing the
order — so a rejected action does not leave every non-error field
byte-for-byte identical. -/
theorem rejected_deploy_reorders_hand :
    (applyAction sampleDeployState sampleDeployAction).map
        (fun s => (s.error, decide (s.players.1.hand.pieces =
          sampleDeployState.players.1.hand.pieces))) =
      some (some .cannotDeployOnHidden, false) := by
  rfl

/-- C2 (amended): a rejected action leaves the board, both players' colors,
the scalars and the opponent's hand unchanged and only sets the error
field; the acting player's hand always keeps the same contents (as a
multiset), and is byte-for-byte identical whenever the action is not a
DEPLOY (a rejected DEPLOY that already removed pieces re-appends them at
the end, possibly changing the order).  `applyAction` never reads the
input's error field, so repeating the same illegal action from the same
starting state (up to the error field) yields the same error. -/
theorem rejection_purity_amended {st : GameState} {a : PlayerAction} {st' : GameState}
    (happ : applyAction st a = some st') (herr : st'.error ≠ none) :
    st'.board = st.board ∧
    st'.activePlayerIndex = st.activePlayerIndex ∧
    st'.colorsAssigned = st.colorsAssigned ∧
    st'.turnCount = st.turnCount ∧
    st'.isGameOver = st.isGameOver ∧
    st'.winner = st.winner ∧
    st'.lastAction = st.lastAction ∧
    st'.pendingChainCapture = st.pendingChainCapture ∧
    st'.players.1.color = st.players.1.color ∧
    st'.players.2.color = st.players.2.color ∧
    List.Perm st'.players.1.hand.pieces st.players.1.hand.pieces ∧
    List.Perm st'.players.2.hand.pieces st.players.2.hand.pieces ∧
    (a.type ≠ .DEPLOY → st' = { st with error := st'.error }) ∧
    (∀ err : Option GameError, applyAction { st with error := err } a = applyAction st a) := by
  rcases he : st'.error with _ | e
  · exact absurd he herr
  rcases applyAction_rejected happ he with h | ⟨hty, p, ty, n, hp, h⟩
  · subst h
    exact ⟨rfl, rfl, rfl, rfl, rfl, rfl, rfl, rfl, rfl, rfl, List.Perm.refl _,
      List.Perm.refl _, fun _ => rfl, fun _ => rfl⟩
  · subst h
    unfold restoredPlayers setPlayer
    unfold getPlayer? at hp
    by_cases h0 : a.playerId = 0
    · rw [if_pos h0] at hp ⊢
      injection hp with hp
      subst hp
      refine ⟨rfl, rfl, rfl, rfl, rfl, rfl, rfl, rfl, rfl, rfl,
        takePieces_perm _ _ _, List.Perm.refl _,
        fun hc => absurd hty hc, fun _ => rfl⟩
    · rw [if_neg h0] at hp ⊢
      by_cases h1 : a.playerId = 1
      · rw [if_pos h1] at hp ⊢
        injection hp with hp
        subst hp
        refine ⟨rfl, rfl, rfl, rfl, rfl, rfl, rfl, rfl, rfl, rfl,
          List.Perm.refl _, takePieces_perm _ _ _,
          fun hc => absurd hty hc, fun _ => rfl⟩
      · rw [if_neg h1] at hp
        exact Option.noConfusion hp

/-- Witness for C2 (amended) at a concrete rejected action (a PASS outside
a chain). -/
theorem rejection_purity_amended_witness :
    (applyAction sampleDeployState { type := .PASS, playerId := 0 } =
        some { sampleDeployState with error := some .cannotPassNotChaining }) ∧
    ({ sampleDeployState with error := some .cannotPassNotChaining } : GameState).board =
      sampleDeployState.board := by
  refine ⟨rfl, ?_⟩
  exact (rejection_purity_amended
    (@rfl _ (applyAction sampleDeployState { type := .PASS, playerId := 0 }))
    (by decide)).1


/-! ## C4: chain protocol -/

/-- While chaining, an accepted MOVE necessarily targets an occupied cell. -/
theorem moveCase_chain_occupied {s : GameState} {a : PlayerAction} {p : PlayerState}
    {st' : GameState}
    (h : moveCase s a p = some st') (herr : st'.error = none)
    (hchain : s.pendingChainCapture.isSome = true) :
    ∃ t d, a.toLoc = some t ∧ jsCell s.board t.row t.col = some d := by
  have contra : ∀ e : GameError, some (fail s e) = some st' → False := by
    intro e hc
    cases hc
    exact Option.noConfusion herr
  unfold moveCase at h
  dsimp only at h
  rcases hfl : a.fromLoc with _ | f <;> rcases htl : a.toLoc with _ | t <;>
    rw [hfl, htl] at h <;> (try dsimp only at h)
  · exact absurd h (fun hc => contra _ hc)
  · exact absurd h (fun hc => contra _ hc)
  · exact absurd h (fun hc => contra _ hc)
  by_cases hv : isValidCoordinate f = true ∧ isValidCoordinate t = true
  case neg =>
    rw [if_pos (fun hc => hv hc)] at h
    exact absurd h (fun hc => contra _ hc)
  rw [if_neg (fun hc => hc hv)] at h
  by_cases hself : f.row = t.row ∧ f.col = t.col
  case pos =>
    rw [if_pos hself] at h
    exact absurd h (fun hc => contra _ hc)
  rw [if_neg hself] at h
  rcases hsrc : jsCellE s.board f.row f.col with _ | srcOpt <;> rw [hsrc] at h <;>
    (try dsimp only at h)
  · exact Option.noConfusion h
  rcases srcOpt with _ | srcStack <;> (try dsimp only at h)
  · exact absurd h (fun hc => contra _ hc)
  rcases hlast : srcStack.pieces.getLast? with _ | mp <;> rw [hlast] at h <;>
    (try dsimp only at h)
  · exact Option.noConfusion h
  by_cases hface : mp.faceUp = true
  case neg =>
    rw [if_pos (by simpa using hface)] at h
    exact absurd h (fun hc => contra _ hc)
  rw [if_neg (by simpa using hface)] at h
  by_cases hown : s.colorsAssigned = true ∧ mp.color ≠ p.color
  case pos =>
    rw [if_pos hown] at h
    exact absurd h (fun hc => contra _ hc)
  rw [if_neg hown] at h
  rcases hdest : jsCellE s.board t.row t.col with _ | destOpt <;> rw [hdest] at h <;>
    (try dsimp only at h)
  · exact Option.noConfusion h
  unfold moveResolve at h
  dsimp only at h
  by_cases hpat : (getMovePatternDetails s.board f t
      (getStackBaseType srcStack.pieces)).valid = true
  case neg =>
    rw [if_pos (by simpa using hpat)] at h
    exact absurd h (fun hc => contra _ hc)
  rw [if_neg (by simpa using hpat)] at h
  rcases destOpt with _ | destStack <;> (try dsimp only at h)
  · rw [if_pos hchain] at h
    exact absurd h (fun hc => contra _ hc)
  · exact ⟨t, destStack, rfl, by unfold jsCell; rw [hdest]; rfl⟩

/-- C4: while Chaining(loc) the only acceptable actions are PASS and a MOVE
sourced at loc onto an occupied cell; FLIP/DEPLOY/RETRIEVE and wrongly
sourced MOVEs are rejected with the chain-protocol errors, a MOVE from loc
onto an empty cell is rejected, an accepted PASS clears the chain, switches
the player and increments the turn counter, and PASS is never accepted
outside a chain. -/
theorem chain_protocol :
    (∀ (st : GameState) (a : PlayerAction) (st' : GameState) (loc : Location),
      st.pendingChainCapture = some loc →
      applyAction st a = some st' → st'.error = none →
      a.type = .PASS ∨
        (a.type = .MOVE ∧ a.fromLoc = some loc ∧
          ∃ t d, a.toLoc = some t ∧ jsCell st.board t.row t.col = some d)) ∧
    (∀ (st : GameState) (a : PlayerAction) (player : PlayerState) (loc : Location),
      st.pendingChainCapture = some loc →
      st.isGameOver = false → a.playerId = st.activePlayerIndex →
      getPlayer? st.players a.playerId = some player →
      (a.type = .FLIP ∨ a.type = .DEPLOY ∨ a.type = .RETRIEVE) →
      applyAction st a = some (fail { st with error := none } .chainMustContinue)) ∧
    (∀ (st : GameState) (a : PlayerAction) (player : PlayerState) (loc : Location),
      st.pendingChainCapture = some loc →
      st.isGameOver = false → a.playerId = st.activePlayerIndex →
      getPlayer? st.players a.playerId = some player →
      a.type = .MOVE →
      (∀ f, a.fromLoc = some f → f.row ≠ loc.row ∨ f.col ≠ loc.col) →
      applyAction st a = some (fail { st with error := none } .chainWrongPiece)) ∧
    (∀ (st : GameState) (a : PlayerAction) (player : PlayerState) (loc t : Location),
      boardShape st.board → stacksNonempty st.board →
      st.pendingChainCapture = some loc →
      st.isGameOver = false → a.playerId = st.activePlayerIndex →
      getPlayer? st.players a.playerId = some player →
      a.type = .MOVE → a.fromLoc = some loc → a.toLoc = some t →
      jsCell st.board t.row t.col = none →
      ∃ st' e, applyAction st a = some st' ∧ st'.error = some e) ∧
    (∀ (st : GameState) (a : PlayerAction) (st' : GameState) (loc : Location),
      st.pendingChainCapture = some loc → a.type = .PASS →
      applyAction st a = some st' → st'.error = none →
      st'.pendingChainCapture = none ∧
      st'.activePlayerIndex = 1 - st.activePlayerIndex ∧
      st'.turnCount = st.turnCount + 1) ∧
    (∀ (st : GameState) (a : PlayerAction) (st' : GameState),
      st.pendingChainCapture = none → a.type = .PASS →
      applyAction st a = some st' → st'.error ≠ none) := by
  refine ⟨?_, ?_, ?_, ?_, ?_, ?_⟩
  · -- (a) acceptance shape while chaining
    intro st a st' loc hchain happ herr
    by_cases hpass : a.type = .PASS
    · exact Or.inl hpass
    right
    unfold applyAction at happ
    dsimp only at happ
    split at happ
    · cases happ; exact absurd herr (by exact fun hc => Option.noConfusion hc)
    · split at happ
      · cases happ; exact absurd herr (by exact fun hc => Option.noConfusion hc)
      · split at happ
        · exact Option.noConfusion happ
        · simp only [hchain, hpass] at happ
          split at happ
          · rename_i hnotmove
            cases happ; exact absurd herr (by exact fun hc => Option.noConfusion hc)
          · rename_i hmove
            rw [not_not] at hmove
            split at happ
            · cases happ; exact absurd herr (by exact fun hc => Option.noConfusion hc)
            · rename_i f hf
              split at happ
              · cases happ; exact absurd herr (by exact fun hc => Option.noConfusion hc)
              · rename_i hloc
                push_neg at hloc
                have hfloc : f = loc := by
                  cases f; cases loc
                  simp only at hloc
                  simp [hloc.1, hloc.2]
                subst hfloc
                unfold runMechanics at happ
                rw [hmove] at happ
                dsimp only at happ
                obtain ⟨t, d, ht, hd⟩ := moveCase_chain_occupied happ herr rfl
                exact ⟨hmove, hf, t, d, ht, hd⟩
  · -- (b) FLIP/DEPLOY/RETRIEVE rejected while chaining
    intro st a player loc hchain hgo hturn hp hty
    unfold applyAction
    dsimp only
    rw [if_neg (by rw [hgo]; exact fun hc => Bool.noConfusion hc)]
    rw [if_neg (by rw [hturn]; exact fun hc => hc rfl)]
    rw [show getPlayer? st.players a.playerId = some player from hp]
    rw [hchain]
    dsimp only
    rw [if_neg (by rcases hty with h | h | h <;> (rw [h]; exact fun hc => ActionType.noConfusion hc))]
    rw [if_pos (by rcases hty with h | h | h <;> (rw [h]; exact fun hc => ActionType.noConfusion hc))]
  · -- (c) wrongly sourced MOVE rejected while chaining
    intro st a player loc hchain hgo hturn hp hty hwrong
    unfold applyAction
    dsimp only
    rw [if_neg (by rw [hgo]; exact fun hc => Bool.noConfusion hc)]
    rw [if_neg (by rw [hturn]; exact fun hc => hc rfl)]
    rw [show getPlayer? st.players a.playerId = some player from hp]
    rw [hchain]
    dsimp only
    rw [if_neg (by rw [hty]; exact fun hc => ActionType.noConfusion hc)]
    rw [if_neg (by rw [hty]; exact fun hc => hc rfl)]
    rcases hfl : a.fromLoc with _ | f
    · rfl
    · dsimp only
      rw [if_pos (hwrong f hfl)]
  · -- (d) MOVE from loc onto an empty cell rejected
    intro st a player loc t hshape hne hchain hgo hturn hp hty hf ht hempty
    rw [applyAction_runChain hgo hturn hp hchain hty hf rfl rfl]
    unfold runMechanics
    rw [hty]
    unfold moveCase
    rw [hf, ht]
    dsimp only
    by_cases hv : isValidCoordinate loc = true ∧ isValidCoordinate t = true
    on_goal 2 =>
      rw [if_pos (by exact fun hc => hv hc)]
      exact ⟨_, .invalidCoords, rfl, rfl⟩
    rw [if_neg (by exact fun hc => hc hv)]
    by_cases hself : loc.row = t.row ∧ loc.col = t.col
    · rw [if_pos hself]
      exact ⟨_, .moveToSelf, rfl, rfl⟩
    rw [if_neg hself]
    obtain ⟨cell, hcell⟩ := jsCellE_isSome_of_shape hshape hv.1
    rw [show jsCellE ({ st with error := none } : GameState).board loc.row loc.col = some cell
      from hcell]
    rcases cell with _ | srcStack
    · exact ⟨_, .noSource, rfl, rfl⟩
    dsimp only
    obtain ⟨mp, hmp⟩ := getLast?_isSome_of_ne_nil (stack_nonempty_of_jsCellE hne hcell)
    simp only [hmp]
    by_cases hface : mp.faceUp = true
    on_goal 2 =>
      rw [if_pos (by simpa using hface)]
      exact ⟨_, .cannotMoveHidden, rfl, rfl⟩
    rw [if_neg (by simpa using hface)]
    by_cases hown : st.colorsAssigned = true ∧ mp.color ≠ player.color
    · rw [if_pos hown]
      exact ⟨_, .notYourPiece, rfl, rfl⟩
    rw [if_neg hown]
    obtain ⟨cell', hcell'⟩ := jsCellE_isSome_of_shape hshape hv.2
    have hcell'none : cell' = none := by
      have : jsCell st.board t.row t.col = cell'.join := by
        unfold jsCell
        rw [hcell']
        cases cell' <;> rfl
      rw [hempty] at this
      cases cell' with
      | none => rfl
      | some c => simp at this
    subst hcell'none
    rw [show jsCellE ({ st with error := none } : GameState).board t.row t.col = some none
      from hcell']
    dsimp only
    unfold moveResolve
    dsimp only
    by_cases hpat : (getMovePatternDetails st.board loc t
        (getStackBaseType srcStack.pieces)).valid = true
    on_goal 2 =>
      rw [if_pos (by simpa using hpat)]
      exact ⟨_, .invalidMovePattern (getStackBaseType srcStack.pieces), rfl, rfl⟩
    rw [if_neg (by simpa using hpat)]
    rw [if_pos (by rw [show ({ st with error := none } : GameState).pendingChainCapture
      = st.pendingChainCapture from rfl, hchain]; rfl)]
    exact ⟨_, .chainMustCapture, rfl, rfl⟩
  · -- (e) accepted PASS clears the chain and advances the turn
    intro st a st' loc hchain hty happ herr
    unfold applyAction at happ
    dsimp only at happ
    split at happ
    · cases happ; exact absurd herr (by exact fun hc => Option.noConfusion hc)
    · split at happ
      · cases happ; exact absurd herr (by exact fun hc => Option.noConfusion hc)
      · split at happ
        · exact Option.noConfusion happ
        · rw [hchain] at happ
          dsimp only at happ
          cases happ
          refine ⟨rfl, ?_, rfl⟩
          have hturn : a.playerId = st.activePlayerIndex :=
            not_ne_iff.mp ‹¬a.playerId ≠ st.activePlayerIndex›
          rw [hturn]
  · -- (f) PASS never accepted outside a chain
    intro st a st' hchain hty happ
    unfold applyAction at happ
    dsimp only at happ
    split at happ
    · cases happ; exact fun hc => Option.noConfusion hc
    · split at happ
      · cases happ; exact fun hc => Option.noConfusion hc
      · split at happ
        · exact Option.noConfusion happ
        · rw [hchain] at happ
          dsimp only at happ
          cases happ
          exact fun hc => Option.noConfusion hc


theorem stacksNonempty_of_all {b : Board}
    (h : (b.all fun rowl => rowl.all fun cell =>
        match cell with | none => true | some st => !st.pieces.isEmpty) = true) :
    stacksNonempty b := by
  intro rowl hr cell hc st hst
  rw [List.all_eq_true] at h
  have h2 := h rowl hr
  rw [List.all_eq_true] at h2
  have h3 := h2 cell hc
  subst hst
  simp only [Bool.not_eq_true'] at h3
  simpa using h3

/-- A state in the middle of a chain: the red soldier at (0,0) must keep
capturing or pass; a black soldier sits at (0,1). -/
def sampleChainState : GameState :=
  { board := setCell (setCell emptyBoard ⟨0, 0⟩ (some ⟨[⟨"a", SOLDIER, RED, true⟩]⟩)) ⟨0, 1⟩
      (some ⟨[⟨"b", SOLDIER, BLACK, true⟩]⟩),
    players := (⟨RED, ⟨[]⟩⟩, ⟨BLACK, ⟨[]⟩⟩),
    activePlayerIndex := 0, colorsAssigned := true, turnCount := 3,
    isGameOver := false, winner := none, lastAction := none, error := none,
    pendingChainCapture := some ⟨0, 0⟩ }

/-- Witness for C4: on the concrete chaining state, a FLIP is rejected with
the chain-protocol error and a MOVE from the chaining cell onto an empty
cell is rejected. -/
theorem chain_protocol_witness :
    (applyAction sampleChainState
        { type := .FLIP, playerId := 0, flipLocation := some ⟨0, 1⟩ } =
      some (fail { sampleChainState with error := none } .chainMustContinue)) ∧
    (∃ st' e, applyAction sampleChainState
        { type := .MOVE, playerId := 0, fromLoc := some ⟨0, 0⟩, toLoc := some ⟨1, 0⟩ } =
          some st' ∧ st'.error = some e) := by
  constructor
  · exact chain_protocol.2.1 sampleChainState _ ⟨RED, ⟨[]⟩⟩ ⟨0, 0⟩ rfl rfl rfl rfl
      (Or.inl rfl)
  · exact chain_protocol.2.2.2.1 sampleChainState _ ⟨RED, ⟨[]⟩⟩ ⟨0, 0⟩ ⟨1, 0⟩
      (by constructor <;> decide) (stacksNonempty_of_all (by decide))
      rfl rfl rfl rfl rfl rfl rfl (by decide)


/-! ## C3: the chain-capture transition after an interaction -/

theorem winCheck_board (s : GameState) : (winCheck s).board = s.board :=
  (winCheck_fields s).1

theorem movePost_board (s : GameState) (a : PlayerAction) (p : PlayerState)
    (t : Location) (mi : Bool) : (movePost s a p t mi).board = s.board := by
  unfold movePost
  split
  · exact (finishTurn_fields _ _).1
  · exact (finishTurn_fields _ _).1

/-- `hasChainOptions` reads only the board (its color argument is unused). -/
theorem hasChainOptions_congr {s s' : GameState} (h : s.board = s'.board)
    (loc : Location) (c c' : Color) :
    hasChainOptions s loc c = hasChainOptions s' loc c' := by
  unfold hasChainOptions
  rw [h]

/-- Outcome of the post-interaction chain logic. -/
theorem movePost_spec (s : GameState) (a : PlayerAction) (p : PlayerState) (t : Location) :
    (hasChainOptions s t p.color = true →
      (movePost s a p t true).pendingChainCapture = some t ∧
      (movePost s a p t true).activePlayerIndex = s.activePlayerIndex ∧
      (movePost s a p t true).turnCount = s.turnCount) ∧
    (hasChainOptions s t p.color = false →
      (movePost s a p t true).pendingChainCapture = none ∧
      (movePost s a p t true).activePlayerIndex = 1 - a.playerId ∧
      (movePost s a p t true).turnCount = s.turnCount + 1) := by
  constructor
  · intro hco
    unfold movePost
    rw [if_pos (by rw [hco]; rfl)]
    have h := finishTurn_fields { s with pendingChainCapture := some t, lastAction := some a } a
    exact ⟨h.2.2.2.2.1, h.2.2.1, h.2.2.2.1⟩
  · intro hco
    unfold movePost
    rw [if_neg (by rw [hco]; simp)]
    have h := finishTurn_fields
      { s with pendingChainCapture := none, activePlayerIndex := 1 - a.playerId,
               turnCount := s.turnCount + 1 } a
    exact ⟨h.2.2.2.2.1, h.2.2.1, h.2.2.2.1⟩

/-- An accepted MOVE whose destination was occupied either chains (when the
landed stack still has an interaction) with the turn frozen, or clears the
chain and advances the turn. -/
theorem moveCase_interaction {s : GameState} {a : PlayerAction} {p : PlayerState}
    {st' : GameState} {t : Location} {d : PieceStack}
    (h : moveCase s a p = some st') (herr : st'.error = none)
    (ht : a.toLoc = some t) (hocc : jsCell s.board t.row t.col = some d) :
    (hasChainOptions st' t p.color = true →
      st'.pendingChainCapture = some t ∧
      st'.activePlayerIndex = s.activePlayerIndex ∧
      st'.turnCount = s.turnCount) ∧
    (hasChainOptions st' t p.color = false →
      st'.pendingChainCapture = none ∧
      st'.activePlayerIndex = 1 - a.playerId ∧
      st'.turnCount = s.turnCount + 1) := by
  have contra : ∀ e : GameError, some (fail s e) = some st' → False := by
    intro e hc
    cases hc
    exact Option.noConfusion herr
  unfold moveCase at h
  dsimp only at h
  rcases hfl : a.fromLoc with _ | f <;> rw [hfl] at h <;> rw [ht] at h <;>
    (try dsimp only at h)
  · exact absurd h (fun hc => contra _ hc)
  by_cases hv : isValidCoordinate f = true ∧ isValidCoordinate t = true
  case neg =>
    rw [if_pos (fun hc => hv hc)] at h
    exact absurd h (fun hc => contra _ hc)
  rw [if_neg (fun hc => hc hv)] at h
  by_cases hself : f.row = t.row ∧ f.col = t.col
  case pos =>
    rw [if_pos hself] at h
    exact absurd h (fun hc => contra _ hc)
  rw [if_neg hself] at h
  rcases hsrc : jsCellE s.board f.row f.col with _ | srcOpt <;> rw [hsrc] at h <;>
    (try dsimp only at h)
  · exact Option.noConfusion h
  rcases srcOpt with _ | srcStack <;> (try dsimp only at h)
  · exact absurd h (fun hc => contra _ hc)
  rcases hlast : srcStack.pieces.getLast? with _ | mp <;> rw [hlast] at h <;>
    (try dsimp only at h)
  · exact Option.noConfusion h
  by_cases hface : mp.faceUp = true
  case neg =>
    rw [if_pos (by simpa using hface)] at h
    exact absurd h (fun hc => contra _ hc)
  rw [if_neg (by simpa using hface)] at h
  by_cases hown : s.colorsAssigned = true ∧ mp.color ≠ p.color
  case pos =>
    rw [if_pos hown] at h
    exact absurd h (fun hc => contra _ hc)
  rw [if_neg hown] at h
  rcases hdest : jsCellE s.board t.row t.col with _ | destOpt <;> rw [hdest] at h <;>
    (try dsimp only at h)
  · exact Option.noConfusion h
  have hd : destOpt = some d := by
    unfold jsCell at hocc
    rw [hdest] at hocc
    simpa using hocc
  subst hd
  unfold moveResolve at h
  dsimp only at h
  by_cases hpat : (getMovePatternDetails s.board f t
      (getStackBaseType srcStack.pieces)).valid = true
  case neg =>
    rw [if_pos (by simpa using hpat)] at h
    exact absurd h (fun hc => contra _ hc)
  rw [if_neg (by simpa using hpat)] at h
  rcases hdlast : d.pieces.getLast? with _ | topDest <;> rw [hdlast] at h <;>
    (try dsimp only at h)
  · exact Option.noConfusion h
  by_cases hdface : topDest.faceUp = true
  case neg =>
    rw [if_pos (by simpa using hdface)] at h
    exact absurd h (fun hc => contra _ hc)
  rw [if_neg (by simpa using hdface)] at h
  unfold moveInteract at h
  dsimp only at h
  by_cases hcr : a.captureResolution.getD .TO_HAND = .TO_HAND
  · rw [if_pos hcr] at h
    by_cases hcap : (!decide (topDest.color = p.color) &&
        !canPieceCaptureTarget s.board f t srcStack d) = true
    case pos =>
      rw [if_pos hcap] at h
      exact absurd h (fun hc => contra _ hc)
    rw [if_neg hcap] at h
    by_cases hcan : (!decide (topDest.color = p.color) &&
        decide (getStackBaseType srcStack.pieces = CANNON ∧
          (getMovePatternDetails s.board f t (getStackBaseType srcStack.pieces)).screens > 1))
        = true
    case pos =>
      rw [if_pos hcan] at h
      exact absurd h (fun hc => contra _ hc)
    rw [if_neg hcan] at h
    cases h
    constructor <;> intro hco
    · rw [hasChainOptions_congr (movePost_board _ a _ t true) t p.color p.color] at hco
      have := (movePost_spec _ a _ t).1 hco
      exact ⟨this.1, this.2.1, this.2.2⟩
    · rw [hasChainOptions_congr (movePost_board _ a _ t true) t p.color p.color] at hco
      have := (movePost_spec _ a _ t).2 hco
      exact ⟨this.1, this.2.1, this.2.2⟩
  · rw [if_neg hcr] at h
    cases hcs : canStackOn d.pieces srcStack.pieces (decide (topDest.color = p.color)) with
    | some r =>
      rw [hcs] at h
      dsimp only at h
      exact absurd h (fun hc => contra _ hc)
    | none =>
    rw [hcs] at h
    dsimp only at h
    by_cases hcap : (!decide (topDest.color = p.color) &&
        !canPieceCaptureTarget s.board f t srcStack d) = true
    case pos =>
      rw [if_pos hcap] at h
      exact absurd h (fun hc => contra _ hc)
    rw [if_neg hcap] at h
    by_cases hcan : (!decide (topDest.color = p.color) &&
        decide (getStackBaseType srcStack.pieces = CANNON ∧
          (getMovePatternDetails s.board f t (getStackBaseType srcStack.pieces)).screens > 1))
        = true
    case pos =>
      rw [if_pos hcan] at h
      exact absurd h (fun hc => contra _ hc)
    rw [if_neg hcan] at h
    cases h
    constructor <;> intro hco
    · rw [hasChainOptions_congr (movePost_board _ a _ t true) t p.color p.color] at hco
      have := (movePost_spec _ a _ t).1 hco
      exact ⟨this.1, this.2.1, this.2.2⟩
    · rw [hasChainOptions_congr (movePost_board _ a _ t true) t p.color p.color] at hco
      have := (movePost_spec _ a _ t).2 hco
      exact ⟨this.1, this.2.1, this.2.2⟩


/-- C3: for every accepted MOVE that resolves an interaction (occupied
destination, friendly or enemy, either resolution mode) landing at `t`: if
`hasChainOptions` finds a further legal interaction from `t` on the
post-move board, the state keeps the turn (pendingChainCapture = t, active
player and turn counter unchanged); otherwise the chain is cleared, the
active player switches and the turn counter increments. -/
theorem chain_transition_after_interaction
    {st : GameState} {a : PlayerAction} {st' : GameState} {player : PlayerState}
    {t : Location} {d : PieceStack}
    (hp : getPlayer? st.players a.playerId = some player)
    (happ : applyAction st a = some st')
    (herr : st'.error = none)
    (hty : a.type = .MOVE)
    (ht : a.toLoc = some t)
    (hocc : jsCell st.board t.row t.col = some d) :
    (hasChainOptions st' t player.color = true →
      st'.pendingChainCapture = some t ∧
      st'.activePlayerIndex = st.activePlayerIndex ∧
      st'.turnCount = st.turnCount) ∧
    (hasChainOptions st' t player.color = false →
      st'.pendingChainCapture = none ∧
      st'.activePlayerIndex = 1 - st.activePlayerIndex ∧
      st'.turnCount = st.turnCount + 1) := by
  unfold applyAction at happ
  dsimp only at happ
  split at happ
  · cases happ; exact absurd herr (by exact fun hc => Option.noConfusion hc)
  · split at happ
    · cases happ; exact absurd herr (by exact fun hc => Option.noConfusion hc)
    · have hturn : a.playerId = st.activePlayerIndex :=
        not_ne_iff.mp ‹¬a.playerId ≠ st.activePlayerIndex›
      split at happ
      · exact Option.noConfusion happ
      · rename_i pst heq
        rw [hp] at heq
        injection heq with heq
        subst heq
        have hrunline : ∀ h2 : runMechanics { st with error := none } a player = some st',
            (hasChainOptions st' t player.color = true →
              st'.pendingChainCapture = some t ∧
              st'.activePlayerIndex = st.activePlayerIndex ∧
              st'.turnCount = st.turnCount) ∧
            (hasChainOptions st' t player.color = false →
              st'.pendingChainCapture = none ∧
              st'.activePlayerIndex = 1 - st.activePlayerIndex ∧
              st'.turnCount = st.turnCount + 1) := by
          intro h2
          unfold runMechanics at h2
          rw [hty] at h2
          dsimp only at h2
          have hmi := moveCase_interaction h2 herr ht hocc
          constructor
          · intro hco
            exact hmi.1 hco
          · intro hco
            obtain ⟨h1', h2', h3'⟩ := hmi.2 hco
            refine ⟨h1', ?_, h3'⟩
            rw [h2', hturn]
        split at happ
        · -- chaining: a MOVE from the chain cell
          rw [if_neg (by rw [hty]; exact fun hc => ActionType.noConfusion hc)] at happ
          rw [if_neg (show ¬(a.type ≠ ActionType.MOVE) from by
            rw [hty]; exact fun hc => hc rfl)] at happ
          split at happ
          · cases happ; exact absurd herr (by exact fun hc => Option.noConfusion hc)
          · split at happ
            · cases happ; exact absurd herr (by exact fun hc => Option.noConfusion hc)
            · exact hrunline happ
        · rw [if_neg (by rw [hty]; exact fun hc => ActionType.noConfusion hc)] at happ
          exact hrunline happ


/-- The chain-continuation capture used as the C3 witness. -/
def sampleChainMove : PlayerAction :=
  { type := .MOVE, playerId := 0, fromLoc := some ⟨0, 0⟩, toLoc := some ⟨0, 1⟩,
    captureResolution := some .TO_HAND }

def sampleChainResult : GameState :=
  (applyAction sampleChainState sampleChainMove).getD sampleChainState

/-- Witness for C3: the concrete capture empties the rest of the board, so
no chain option remains and the turn advances. -/
theorem chain_transition_witness :
    sampleChainResult.pendingChainCapture = none ∧
    sampleChainResult.activePlayerIndex = 1 - sampleChainState.activePlayerIndex ∧
    sampleChainResult.turnCount = sampleChainState.turnCount + 1 := by
  exact (@chain_transition_after_interaction sampleChainState sampleChainMove
    sampleChainResult ⟨RED, ⟨[]⟩⟩ ⟨0, 1⟩ ⟨[⟨"b", SOLDIER, BLACK, true⟩]⟩
    rfl rfl rfl rfl rfl rfl).2 (by decide)


/-! ## Reading back through setCell -/

theorem setInList_length {α : Type _} (l : List α) (n : Nat) (f : α → α) :
    (setInList l n f).length = l.length := by
  induction l generalizing n with
  | nil => rfl
  | cons a l ih =>
    cases n with
    | zero => rfl
    | succ n => simp [setInList, ih]

theorem setInList_get?_self {α : Type _} {l : List α} {n : Nat} (f : α → α) :
    (setInList l n f).get? n = (l.get? n).map f := by
  induction l generalizing n with
  | nil => cases n <;> rfl
  | cons a l ih =>
    cases n with
    | zero => rfl
    | succ n => simpa [setInList] using ih

theorem setInList_get?_other {α : Type _} {l : List α} {n m : Nat} (f : α → α)
    (h : m ≠ n) : (setInList l n f).get? m = l.get? m := by
  induction l generalizing n m with
  | nil => rfl
  | cons a l ih =>
    cases n with
    | zero => cases m with
      | zero => exact absurd rfl h
      | succ m => rfl
    | succ n => cases m with
      | zero => rfl
      | succ m => simpa [setInList] using ih (fun hc => h (by rw [hc]))

theorem jsIndex_setInList_self {α : Type _} {l : List α} {i : Int} {a : α} (f : α → α)
    (h : jsIndex l i = some a) : jsIndex (setInList l i.toNat f) i = some (f a) := by
  rcases jsIndex_eq_some_iff.mp h with ⟨h0, hget⟩
  rw [jsIndex_eq_some_iff]
  refine ⟨h0, ?_⟩
  rw [setInList_get?_self, hget]
  rfl

theorem jsIndex_setInList_other {α : Type _} {l : List α} {i : Int} {n : Nat}
    (f : α → α) (h : i < 0 ∨ i.toNat ≠ n) : jsIndex (setInList l n f) i = jsIndex l i := by
  unfold jsIndex
  rcases h with h | h
  · rw [if_pos h, if_pos h]
  · by_cases h0 : i < 0
    · rw [if_pos h0, if_pos h0]
    · rw [if_neg h0, if_neg h0, setInList_get?_other _ h]

theorem join_eq_some {α : Type _} {o : Option (Option α)} {a : α} :
    o.join = some a ↔ o = some (some a) := by
  rcases o with _ | o
  · simp
  · rcases o with _ | b <;> simp

theorem jsCellE_setCell_self {b : Board} {loc : Location} {x : PieceStack}
    (h : jsCellE b loc.row loc.col = some (some x)) (v : Option PieceStack) :
    jsCellE (setCell b loc v) loc.row loc.col = some v := by
  unfold jsCellE at h ⊢
  rcases hrow : jsIndex b loc.row with _ | rowl
  · rw [hrow] at h; exact Option.noConfusion h
  rw [hrow] at h
  simp only [Option.map_some'] at h
  injection h with h
  rw [join_eq_some] at h
  have hcell := h
  have h0r : ¬ loc.row < 0 := by
    rcases jsIndex_eq_some_iff.mp hrow with ⟨h0, -⟩; omega
  have h0c : ¬ loc.col < 0 := by
    rcases jsIndex_eq_some_iff.mp hcell with ⟨h0, -⟩; omega
  unfold setCell
  rw [if_neg (by push_neg; omega)]
  rw [jsIndex_setInList_self _ hrow]
  simp only [Option.map_some']
  rw [jsIndex_setInList_self _ hcell]
  rfl

theorem jsCellE_setCell_other (b : Board) (loc : Location) (v : Option PieceStack)
    (loc' : Location) (h : ¬(loc'.row = loc.row ∧ loc'.col = loc.col)) :
    jsCellE (setCell b loc v) loc'.row loc'.col = jsCellE b loc'.row loc'.col := by
  unfold setCell
  by_cases hneg : loc.row < 0 ∨ loc.col < 0
  · rw [if_pos hneg]
  rw [if_neg hneg]
  push_neg at hneg
  unfold jsCellE
  by_cases hrow : loc'.row = loc.row
  · have hcol : loc'.col ≠ loc.col := fun hc => h ⟨hrow, hc⟩
    rcases hr : jsIndex b loc'.row with _ | rowl
    · rw [show jsIndex (setInList b loc.row.toNat
          (fun rowl => setInList rowl loc.col.toNat (fun _ => v))) loc'.row = none from by
          rw [jsIndex_eq_none_iff, setInList_length]
          exact jsIndex_eq_none_iff.mp hr]
    · rw [hrow] at hr
      rw [hrow]
      rw [jsIndex_setInList_self _ hr]
      simp only [Option.map_some', Option.some.injEq]
      by_cases h0c : loc'.col < 0
      · rw [jsIndex_setInList_other _ (Or.inl h0c)]
      · rw [jsIndex_setInList_other _ (Or.inr (by omega))]
  · by_cases h0 : loc'.row < 0
    · rw [jsIndex_setInList_other _ (Or.inl h0)]
    · rw [jsIndex_setInList_other _ (Or.inr (by omega))]


/-! ## C7: To-Hand resolution -/

theorem movePost_players (s : GameState) (a : PlayerAction) (p : PlayerState)
    (t : Location) (mi : Bool) : (movePost s a p t mi).players = s.players := by
  unfold movePost
  split
  · exact (finishTurn_fields _ _).2.1
  · exact (finishTurn_fields _ _).2.1

theorem getPlayer?_setPlayer_self {ps : PlayerState × PlayerState} {i : Nat}
    {p : PlayerState} (h : getPlayer? ps i = some p) (q : PlayerState) :
    getPlayer? (setPlayer ps i q) i = some q := by
  unfold getPlayer? setPlayer at *
  by_cases h0 : i = 0
  · simp [h0]
  · rw [if_neg h0] at h
    by_cases h1 : i = 1
    · simp [h0, h1]
    · rw [if_neg h1] at h
      exact Option.noConfusion h

/-- C7 (amended): an accepted To-Hand MOVE onto an occupied destination
moves every destination piece into the mover's hand, recoloring each one to
the mover's color unconditionally — for an enemy destination this is the
claimed conversion, for a friendly destination whose pieces already carry
the mover's color it is a no-op, but a buried opposite-color piece in a
friendly stack is recolored too (the claim's "friendly retrieve leaves
their color unchanged" fails there).  The mover's stack then occupies the
destination and the source cell is empty. -/
theorem tohand_resolution_amended
    {st : GameState} {a : PlayerAction} {st' : GameState} {player : PlayerState}
    {f t : Location} {src d : PieceStack}
    (hp : getPlayer? st.players a.playerId = some player)
    (happ : applyAction st a = some st')
    (herr : st'.error = none)
    (hty : a.type = .MOVE)
    (hcr : a.captureResolution.getD .TO_HAND = .TO_HAND)
    (hf : a.fromLoc = some f) (ht : a.toLoc = some t)
    (hsrcj : jsCell st.board f.row f.col = some src)
    (hocc : jsCell st.board t.row t.col = some d) :
    (getPlayer? st'.players a.playerId).map (fun q => q.hand.pieces) =
      some (player.hand.pieces ++
        d.pieces.map (fun p => { p with color := player.color })) ∧
    jsCell st'.board t.row t.col = some ⟨src.pieces⟩ ∧
    jsCell st'.board f.row f.col = none := by
  unfold applyAction at happ
  dsimp only at happ
  split at happ
  · cases happ; exact absurd herr (by exact fun hc => Option.noConfusion hc)
  · split at happ
    · cases happ; exact absurd herr (by exact fun hc => Option.noConfusion hc)
    · split at happ
      · exact Option.noConfusion happ
      · rename_i pst heq
        rw [hp] at heq
        injection heq with heq
        subst heq
        have hrunline : ∀ h2 : runMechanics { st with error := none } a player = some st',
            (getPlayer? st'.players a.playerId).map (fun q => q.hand.pieces) =
              some (player.hand.pieces ++
                d.pieces.map (fun p => { p with color := player.color })) ∧
            jsCell st'.board t.row t.col = some ⟨src.pieces⟩ ∧
            jsCell st'.board f.row f.col = none := by
          intro h
          clear happ
          unfold runMechanics at h
          rw [hty] at h
          dsimp only at h
          have contra : ∀ e : GameError,
              some (fail { st with error := none } e) = some st' → False := by
            intro e hc
            cases hc
            exact Option.noConfusion herr
          unfold moveCase at h
          dsimp only at h
          rw [hf, ht] at h
          dsimp only at h
          by_cases hv : isValidCoordinate f = true ∧ isValidCoordinate t = true
          case neg =>
            rw [if_pos (fun hc => hv hc)] at h
            exact absurd h (fun hc => contra _ hc)
          rw [if_neg (fun hc => hc hv)] at h
          by_cases hself : f.row = t.row ∧ f.col = t.col
          case pos =>
            rw [if_pos hself] at h
            exact absurd h (fun hc => contra _ hc)
          rw [if_neg hself] at h
          rcases hsrcE : jsCellE st.board f.row f.col with _ | srcOpt <;>
            rw [hsrcE] at h <;> (try dsimp only at h)
          · exact Option.noConfusion h
          rcases srcOpt with _ | srcStack <;> (try dsimp only at h)
          · unfold jsCell at hsrcj
            rw [hsrcE] at hsrcj
            exact Option.noConfusion hsrcj
          have hsrceq : srcStack = src := by
            unfold jsCell at hsrcj
            rw [hsrcE] at hsrcj
            simpa using hsrcj
          subst hsrceq
          rcases hlast : srcStack.pieces.getLast? with _ | mp <;> rw [hlast] at h <;>
            (try dsimp only at h)
          · exact Option.noConfusion h
          by_cases hface : mp.faceUp = true
          case neg =>
            rw [if_pos (by simpa using hface)] at h
            exact absurd h (fun hc => contra _ hc)
          rw [if_neg (by simpa using hface)] at h
          by_cases hown : st.colorsAssigned = true ∧ mp.color ≠ player.color
          case pos =>
            rw [if_pos hown] at h
            exact absurd h (fun hc => contra _ hc)
          rw [if_neg hown] at h
          rcases hdest : jsCellE st.board t.row t.col with _ | destOpt <;>
            rw [hdest] at h <;> (try dsimp only at h)
          · exact Option.noConfusion h
          have hd : destOpt = some d := by
            unfold jsCell at hocc
            rw [hdest] at hocc
            simpa using hocc
          subst hd
          unfold moveResolve at h
          dsimp only at h
          by_cases hpat : (getMovePatternDetails st.board f t
              (getStackBaseType srcStack.pieces)).valid = true
          case neg =>
            rw [if_pos (by simpa using hpat)] at h
            exact absurd h (fun hc => contra _ hc)
          rw [if_neg (by simpa using hpat)] at h
          rcases hdlast : d.pieces.getLast? with _ | topDest <;> rw [hdlast] at h <;>
            (try dsimp only at h)
          · exact Option.noConfusion h
          by_cases hdface : topDest.faceUp = true
          case neg =>
            rw [if_pos (by simpa using hdface)] at h
            exact absurd h (fun hc => contra _ hc)
          rw [if_neg (by simpa using hdface)] at h
          unfold moveInteract at h
          dsimp only at h
          rw [if_pos hcr] at h
          by_cases hcap : (!decide (topDest.color = player.color) &&
              !canPieceCaptureTarget st.board f t srcStack d) = true
          case pos =>
            rw [if_pos hcap] at h
            exact absurd h (fun hc => contra _ hc)
          rw [if_neg hcap] at h
          by_cases hcan : (!decide (topDest.color = player.color) &&
              decide (getStackBaseType srcStack.pieces = CANNON ∧
                (getMovePatternDetails st.board f t
                  (getStackBaseType srcStack.pieces)).screens > 1)) = true
          case pos =>
            rw [if_pos hcan] at h
            exact absurd h (fun hc => contra _ hc)
          rw [if_neg hcan] at h
          cases h
          have hselfT : ¬(t.row = f.row ∧ t.col = f.col) := by
            intro hc
            exact hself ⟨hc.1.symm, hc.2.symm⟩
          refine ⟨?_, ?_, ?_⟩
          · rw [movePost_players]
            dsimp only
            rw [getPlayer?_setPlayer_self hp]
            rfl
          · rw [movePost_board]
            dsimp only
            unfold jsCell
            rw [jsCellE_setCell_other _ _ _ _ hselfT]
            rw [jsCellE_setCell_self hdest (some ⟨srcStack.pieces⟩)]
            rfl
          · rw [movePost_board]
            dsimp only
            have hx : jsCellE (setCell st.board t (some ⟨srcStack.pieces⟩)) f.row f.col =
                some (some srcStack) := by
              rw [jsCellE_setCell_other _ _ _ _ hself]
              exact hsrcE
            unfold jsCell
            rw [jsCellE_setCell_self hx none]
            rfl
        split at happ
        · rw [if_neg (by rw [hty]; exact fun hc => ActionType.noConfusion hc)] at happ
          rw [if_neg (show ¬(a.type ≠ ActionType.MOVE) from by
            rw [hty]; exact fun hc => hc rfl)] at happ
          split at happ
          · cases happ; exact absurd herr (by exact fun hc => Option.noConfusion hc)
          · split at happ
            · cases happ; exact absurd herr (by exact fun hc => Option.noConfusion hc)
            · exact hrunline happ
        · rw [if_neg (by rw [hty]; exact fun hc => ActionType.noConfusion hc)] at happ
          exact hrunline happ


/-- A friendly destination stack at (0,1) whose top is the mover's color
but whose buried piece is enemy-colored (such stacks arise from
capture-stacking, which skips the color check). -/
def sampleFriendlyState : GameState :=
  { board := setCell (setCell emptyBoard ⟨0, 0⟩ (some ⟨[⟨"m", SOLDIER, RED, true⟩]⟩)) ⟨0, 1⟩
      (some ⟨[⟨"adv", ADVISOR, BLACK, true⟩, ⟨"top", SOLDIER, RED, true⟩]⟩),
    players := (⟨RED, ⟨[]⟩⟩, ⟨BLACK, ⟨[]⟩⟩),
    activePlayerIndex := 0, colorsAssigned := true, turnCount := 0,
    isGameOver := false, winner := none, lastAction := none, error := none,
    pendingChainCapture := none }

def sampleFriendlyMove : PlayerAction :=
  { type := .MOVE, playerId := 0, fromLoc := some ⟨0, 0⟩, toLoc := some ⟨0, 1⟩,
    captureResolution := some .TO_HAND }

/-- C7 counterexample: the destination belonged to the mover (its top is
RED, the mover's color), yet the To-Hand retrieve recolors the buried BLACK
advisor to RED — the claim's "a friendly retrieve leaves their color
unchanged" is false; the source recolors every harvested piece
unconditionally. -/
theorem tohand_recolors_friendly_buried :
    ((jsCell sampleFriendlyState.board 0 1).map
        (fun s => s.pieces.map (fun p => (p.id, p.color))) =
      some [("adv", BLACK), ("top", RED)]) ∧
    ((getTopPiece (jsCell sampleFriendlyState.board 0 1)).map (fun p => p.color) =
      some RED) ∧
    ((getPlayer? sampleFriendlyState.players 0).map (fun p => p.color) = some RED) ∧
    ((applyAction sampleFriendlyState sampleFriendlyMove).map
        (fun s => (s.error, s.players.1.hand.pieces.map (fun p => (p.id, p.color)))) =
      some (none, [("adv", RED), ("top", RED)])) := by
  exact ⟨rfl, rfl, rfl, rfl⟩

def sampleFriendlyResult : GameState :=
  (applyAction sampleFriendlyState sampleFriendlyMove).getD sampleFriendlyState

/-- Witness for C7 (amended) at the concrete friendly retrieve. -/
theorem tohand_resolution_amended_witness :
    (getPlayer? sampleFriendlyResult.players 0).map (fun q => q.hand.pieces) =
      some (([] : List PieceInstance) ++
        ([⟨"adv", ADVISOR, BLACK, true⟩, ⟨"top", SOLDIER, RED, true⟩] :
          List PieceInstance).map (fun p => { p with color := RED })) ∧
    jsCell sampleFriendlyResult.board 0 1 = some ⟨[⟨"m", SOLDIER, RED, true⟩]⟩ ∧
    jsCell sampleFriendlyResult.board 0 0 = none := by
  exact @tohand_resolution_amended sampleFriendlyState sampleFriendlyMove
    sampleFriendlyResult ⟨RED, ⟨[]⟩⟩ ⟨0, 0⟩ ⟨0, 1⟩ ⟨[⟨"m", SOLDIER, RED, true⟩]⟩
    ⟨[⟨"adv", ADVISOR, BLACK, true⟩, ⟨"top", SOLDIER, RED, true⟩]⟩
    rfl rfl rfl rfl rfl rfl rfl rfl rfl


/-! ## C8: win detection -/

theorem movePost_success (s : GameState) (a : PlayerAction) (p : PlayerState)
    (t : Location) (mi : Bool) :
    ∃ s1, movePost s a p t mi = finishTurn s1 a ∧ s1.isGameOver = s.isGameOver ∧
      s1.error = s.error := by
  unfold movePost
  split
  · exact ⟨_, rfl, rfl, rfl⟩
  · exact ⟨_, rfl, rfl, rfl⟩

theorem flipCase_success {s : GameState} {a : PlayerAction} {p : PlayerState}
    {st' : GameState} (h : flipCase s a p = some st') (herr : st'.error = none) :
    ∃ s1, st' = finishTurn s1 a ∧ s1.isGameOver = s.isGameOver ∧ s1.error = s.error := by
  have contra : ∀ e : GameError, some (fail s e) = some st' → False := by
    intro e hc; cases hc; exact Option.noConfusion herr
  unfold flipCase at h
  split at h
  · exact absurd h (fun hc => contra _ hc)
  · split at h
    · exact Option.noConfusion h
    · split at h
      · exact absurd h (fun hc => contra _ hc)
      · split at h
        · exact absurd h (fun hc => contra _ hc)
        · split at h
          · exact absurd h (fun hc => contra _ hc)
          · cases h
            dsimp only
            split
            · exact ⟨_, rfl, rfl, rfl⟩
            · exact ⟨_, rfl, rfl, rfl⟩

theorem moveInteract_success {s : GameState} {a : PlayerAction} {p : PlayerState}
    {f t : Location} {cr : CaptureResolution} {src dst : PieceStack}
    {topDest : PieceInstance} {bt : PieceType} {pat : MovePatternDetails}
    {st' : GameState}
    (h : moveInteract s a p f t cr src dst topDest bt pat = some st')
    (herr : st'.error = none) :
    ∃ s1, st' = finishTurn s1 a ∧ s1.isGameOver = s.isGameOver ∧ s1.error = s.error := by
  have contra : ∀ e : GameError, some (fail s e) = some st' → False := by
    intro e hc; cases hc; exact Option.noConfusion herr
  unfold moveInteract at h
  dsimp only at h
  split at h
  · split at h
    · exact absurd h (fun hc => contra _ hc)
    · split at h
      · exact absurd h (fun hc => contra _ hc)
      · cases h
        exact movePost_success _ a _ t true
  · split at h
    · exact absurd h (fun hc => contra _ hc)
    · split at h
      · exact absurd h (fun hc => contra _ hc)
      · split at h
        · exact absurd h (fun hc => contra _ hc)
        · cases h
          exact movePost_success _ a _ t true

theorem moveCase_success {s : GameState} {a : PlayerAction} {p : PlayerState}
    {st' : GameState} (h : moveCase s a p = some st') (herr : st'.error = none) :
    ∃ s1, st' = finishTurn s1 a ∧ s1.isGameOver = s.isGameOver ∧ s1.error = s.error := by
  have contra : ∀ e : GameError, some (fail s e) = some st' → False := by
    intro e hc; cases hc; exact Option.noConfusion herr
  unfold moveCase at h
  dsimp only at h
  split at h
  · split at h
    · exact absurd h (fun hc => contra _ hc)
    · split at h
      · exact absurd h (fun hc => contra _ hc)
      · split at h
        · exact Option.noConfusion h
        · exact absurd h (fun hc => contra _ hc)
        · split at h
          · exact Option.noConfusion h
          · split at h
            · exact absurd h (fun hc => contra _ hc)
            · split at h
              · exact absurd h (fun hc => contra _ hc)
              · split at h
                · exact Option.noConfusion h
                · unfold moveResolve at h
                  dsimp only at h
                  split at h
                  · exact absurd h (fun hc => contra _ hc)
                  · split at h
                    · split at h
                      · exact absurd h (fun hc => contra _ hc)
                      · split at h
                        · exact absurd h (fun hc => contra _ hc)
                        · cases h
                          exact movePost_success _ a _ _ false
                    · split at h
                      · exact Option.noConfusion h
                      · split at h
                        · exact absurd h (fun hc => contra _ hc)
                        · exact moveInteract_success h herr
  · exact absurd h (fun hc => contra _ hc)

theorem deployCase_success {s : GameState} {a : PlayerAction} {p : PlayerState}
    {st' : GameState} (h : deployCase s a p = some st') (herr : st'.error = none) :
    ∃ s1, st' = finishTurn s1 a ∧ s1.isGameOver = s.isGameOver ∧ s1.error = s.error := by
  have contra : ∀ x : GameState, some x = some st' → x.error.isSome = true → False := by
    intro x hc hx
    cases hc
    rw [herr] at hx
    exact Bool.noConfusion hx
  unfold deployCase at h
  dsimp only at h
  split at h
  · exact absurd h (fun hc => contra _ hc rfl)
  · split at h
    · split at h
      · exact absurd h (fun hc => contra _ hc rfl)
      · split at h
        · exact absurd h (fun hc => contra _ hc rfl)
        · split at h
          · exact absurd h (fun hc => contra _ hc rfl)
          · split at h
            · exact absurd h (fun hc => contra _ hc rfl)
            · split at h
              · exact Option.noConfusion h
              · cases h
                exact ⟨_, rfl, rfl, rfl⟩
              · split at h
                · exact Option.noConfusion h
                · split at h
                  · exact absurd h (fun hc => contra _ hc rfl)
                  · split at h
                    · exact absurd h (fun hc => contra _ hc rfl)
                    · split at h
                      · exact absurd h (fun hc => contra _ hc rfl)
                      · cases h
                        exact ⟨_, rfl, rfl, rfl⟩
    · exact absurd h (fun hc => contra _ hc rfl)

theorem retrieveCase_success {s : GameState} {a : PlayerAction} {p : PlayerState}
    {st' : GameState} (h : retrieveCase s a p = some st') (herr : st'.error = none) :
    ∃ s1, st' = finishTurn s1 a ∧ s1.isGameOver = s.isGameOver ∧ s1.error = s.error := by
  have contra : ∀ e : GameError, some (fail s e) = some st' → False := by
    intro e hc; cases hc; exact Option.noConfusion herr
  unfold retrieveCase at h
  dsimp only at h
  split at h
  · exact absurd h (fun hc => contra _ hc)
  · split at h
    · split at h
      · exact Option.noConfusion h
      · exact absurd h (fun hc => contra _ hc)
      · split at h
        · exact Option.noConfusion h
        · split at h
          · exact absurd h (fun hc => contra _ hc)
          · split at h
            · exact absurd h (fun hc => contra _ hc)
            · split at h
              · exact absurd h (fun hc => contra _ hc)
              · cases h
                exact ⟨_, rfl, rfl, rfl⟩
    · exact absurd h (fun hc => contra _ hc)

/-- Acceptance shape: every accepted non-PASS action ends in the common
turn tail applied to an intermediate state that is not game-over. -/
theorem applyAction_accepted_shape {st : GameState} {a : PlayerAction} {st' : GameState}
    (happ : applyAction st a = some st') (herr : st'.error = none)
    (hpass : a.type ≠ .PASS) :
    ∃ s1, st' = finishTurn s1 a ∧ s1.isGameOver = false ∧ s1.error = none := by
  unfold applyAction at happ
  dsimp only at happ
  split at happ
  · cases happ; exact absurd herr (by exact fun hc => Option.noConfusion hc)
  · rename_i hgo
    rw [Bool.not_eq_true] at hgo
    split at happ
    · cases happ; exact absurd herr (by exact fun hc => Option.noConfusion hc)
    · split at happ
      · exact Option.noConfusion happ
      · have hrun : ∀ p, runMechanics { st with error := none } a p = some st' →
            ∃ s1, st' = finishTurn s1 a ∧ s1.isGameOver = false ∧ s1.error = none := by
          intro p h2
          unfold runMechanics at h2
          split at h2
          · obtain ⟨s1, h1, h2', h3⟩ := flipCase_success h2 herr
            exact ⟨s1, h1, by rw [h2']; exact hgo, h3⟩
          · obtain ⟨s1, h1, h2', h3⟩ := moveCase_success h2 herr
            exact ⟨s1, h1, by rw [h2']; exact hgo, h3⟩
          · obtain ⟨s1, h1, h2', h3⟩ := deployCase_success h2 herr
            exact ⟨s1, h1, by rw [h2']; exact hgo, h3⟩
          · obtain ⟨s1, h1, h2', h3⟩ := retrieveCase_success h2 herr
            exact ⟨s1, h1, by rw [h2']; exact hgo, h3⟩
          · rename_i hty
            exact absurd hty hpass
        split at happ
        · split at happ
          · cases happ; exact absurd herr (by exact fun hc => Option.noConfusion hc)
          · split at happ
            · cases happ; exact absurd herr (by exact fun hc => Option.noConfusion hc)
            · split at happ
              · cases happ
                exact absurd herr (by exact fun hc => Option.noConfusion hc)
              · exact hrun _ happ
        · exact hrun _ happ


theorem finishTurn_winCheck {s : GameState} {a : PlayerAction}
    (h : s.pendingChainCapture = none) :
    finishTurn s a = winCheck { s with lastAction := some a } := by
  unfold finishTurn
  dsimp only
  rw [show ({ s with lastAction := some a } : GameState).pendingChainCapture
      = s.pendingChainCapture from rfl, h]
  rfl

theorem getLegalActions_winCheck (s : GameState) (i : Nat) :
    getLegalActions (winCheck s) i = getLegalActions s i := by
  unfold winCheck
  dsimp only
  split
  · rfl
  · split
    · rfl
    · split
      · rfl
      · rfl

/-- Characterisation of the win-condition block: with colors assigned, the
elimination test (all revealed and the next player owns nothing) ends the
game, otherwise an empty legal-action list ends the game, otherwise
`isGameOver` is untouched. -/
theorem winCheck_outcome (s : GameState) (hca : s.colorsAssigned = true) :
    ((allRevealedB s.board = true ∧ hasPieceOnBoardB s.board
        (((getPlayer? s.players s.activePlayerIndex).map (fun p => p.color)).getD UNKNOWN) = false) →
      (winCheck s).isGameOver = true ∧ (winCheck s).winner = some (1 - s.activePlayerIndex)) ∧
    (¬(allRevealedB s.board = true ∧ hasPieceOnBoardB s.board
        (((getPlayer? s.players s.activePlayerIndex).map (fun p => p.color)).getD UNKNOWN) = false) →
      getLegalActions s s.activePlayerIndex = [] →
      (winCheck s).isGameOver = true ∧ (winCheck s).winner = some (1 - s.activePlayerIndex)) ∧
    (¬(allRevealedB s.board = true ∧ hasPieceOnBoardB s.board
        (((getPlayer? s.players s.activePlayerIndex).map (fun p => p.color)).getD UNKNOWN) = false) →
      getLegalActions s s.activePlayerIndex ≠ [] →
      (winCheck s).isGameOver = s.isGameOver) := by
  unfold winCheck
  dsimp only
  rw [if_neg (not_not_intro hca)]
  refine ⟨?_, ?_, ?_⟩
  · intro hc
    rw [if_pos ⟨hc.1, by rw [hc.2]; exact Bool.false_ne_true⟩]
    exact ⟨rfl, rfl⟩
  · intro hne hleg
    rw [if_neg (fun hc => hne ⟨hc.1, Bool.eq_false_iff.mpr hc.2⟩),
        if_pos (show (getLegalActions s s.activePlayerIndex).isEmpty = true by rw [hleg]; rfl)]
    exact ⟨rfl, rfl⟩
  · intro hne hleg
    rw [if_neg (fun hc => hne ⟨hc.1, Bool.eq_false_iff.mpr hc.2⟩),
        if_neg (fun hc => hleg (List.isEmpty_iff.mp hc))]

/-! ## C8: win detection after accepted actions -/

/-- A chaining state on a fully revealed board on which the opponent of the
chaining player owns nothing: a single face-up red Soldier at (0,0). -/
def samplePassState : GameState :=
  { board := setCell emptyBoard ⟨0, 0⟩ (some ⟨[⟨"r", SOLDIER, RED, true⟩]⟩),
    players := (⟨RED, ⟨[]⟩⟩, ⟨BLACK, ⟨[]⟩⟩),
    activePlayerIndex := 0, colorsAssigned := true, turnCount := 0,
    isGameOver := false, winner := none, lastAction := none, error := none,
    pendingChainCapture := some ⟨0, 0⟩ }

def samplePassAction : PlayerAction := { type := .PASS, playerId := 0 }

/-- C8 counterexample: the accepted PASS on `samplePassState` leaves no chain
pending, colors are assigned, the board is fully revealed and the now-active
player (BLACK) owns zero pieces on it — the claim's elimination condition —
yet the returned state has `isGameOver = false` and no winner: the PASS
branch of the chain pre-check returns before the win-detection block runs. -/
theorem pass_skips_win_detection :
    (applyAction samplePassState samplePassAction).map
        (fun s => (s.error, s.pendingChainCapture, s.colorsAssigned, s.isGameOver, s.winner,
          allRevealedB s.board,
          hasPieceOnBoardB s.board
            (((getPlayer? s.players s.activePlayerIndex).map (fun p => p.color)).getD UNKNOWN))) =
      some (none, none, true, false, none, true, false) := by
  rfl

/-- C8 (amended): win detection runs for every accepted action EXCEPT an
accepted chain-ending PASS, which returns before the win-condition block.
For an accepted non-PASS action leaving no chain pending, with colors
assigned: if the board is fully revealed (every stack's TOP piece face-up)
and the now-active player's color owns no stack top, the game ends with the
other player as winner; otherwise an empty legal-action list for the
now-active player ends the game the same way; otherwise `isGameOver` stays
false. -/
theorem win_detection_after_non_pass {st : GameState} {a : PlayerAction} {st' : GameState}
    (happ : applyAction st a = some st') (herr : st'.error = none)
    (hpass : a.type ≠ .PASS)
    (hchain : st'.pendingChainCapture = none)
    (hca : st'.colorsAssigned = true) :
    ((allRevealedB st'.board = true ∧ hasPieceOnBoardB st'.board
        (((getPlayer? st'.players st'.activePlayerIndex).map (fun p => p.color)).getD UNKNOWN) = false) →
      st'.isGameOver = true ∧ st'.winner = some (1 - st'.activePlayerIndex)) ∧
    (¬(allRevealedB st'.board = true ∧ hasPieceOnBoardB st'.board
        (((getPlayer? st'.players st'.activePlayerIndex).map (fun p => p.color)).getD UNKNOWN) = false) →
      getLegalActions st' st'.activePlayerIndex = [] →
      st'.isGameOver = true ∧ st'.winner = some (1 - st'.activePlayerIndex)) ∧
    (¬(allRevealedB st'.board = true ∧ hasPieceOnBoardB st'.board
        (((getPlayer? st'.players st'.activePlayerIndex).map (fun p => p.color)).getD UNKNOWN) = false) →
      getLegalActions st' st'.activePlayerIndex ≠ [] →
      st'.isGameOver = false) := by
  obtain ⟨s1, rfl, hgo1, herr1⟩ := applyAction_accepted_shape happ herr hpass
  have hpc : s1.pendingChainCapture = none := by
    rw [(finishTurn_fields s1 a).2.2.2.2.1] at hchain
    exact hchain
  rw [finishTurn_winCheck hpc] at hca ⊢
  rw [(winCheck_fields _).2.2.2.2.2.2.2] at hca
  obtain ⟨hb, hp, hai, -, -, -, -, -⟩ := winCheck_fields { s1 with lastAction := some a }
  rw [hb, hp, hai, getLegalActions_winCheck]
  obtain ⟨hElim, hStale, hNo⟩ := winCheck_outcome { s1 with lastAction := some a } hca
  refine ⟨hElim, hStale, fun h1 h2 => ?_⟩
  rw [hNo h1 h2]
  exact hgo1

/-- A state with a single hidden red piece at (0,0); flipping it leaves the
board fully revealed with BLACK owning nothing. -/
def sampleWinState : GameState :=
  { board := setCell emptyBoard ⟨0, 0⟩ (some ⟨[⟨"r", SOLDIER, RED, false⟩]⟩),
    players := (⟨RED, ⟨[]⟩⟩, ⟨BLACK, ⟨[]⟩⟩),
    activePlayerIndex := 0, colorsAssigned := true, turnCount := 0,
    isGameOver := false, winner := none, lastAction := none, error := none,
    pendingChainCapture := none }

def sampleWinAction : PlayerAction := { type := .FLIP, playerId := 0, flipLocation := some ⟨0, 0⟩ }

def sampleWinResult : GameState :=
  (applyAction sampleWinState sampleWinAction).getD sampleWinState

theorem win_detection_after_non_pass_witness :
    applyAction sampleWinState sampleWinAction = some sampleWinResult ∧
    sampleWinResult.error = none ∧ sampleWinAction.type ≠ .PASS ∧
    sampleWinResult.pendingChainCapture = none ∧
    sampleWinResult.colorsAssigned = true ∧
    (((allRevealedB sampleWinResult.board = true ∧ hasPieceOnBoardB sampleWinResult.board
        (((getPlayer? sampleWinResult.players sampleWinResult.activePlayerIndex).map (fun p => p.color)).getD UNKNOWN) = false) →
      sampleWinResult.isGameOver = true ∧ sampleWinResult.winner = some (1 - sampleWinResult.activePlayerIndex)) ∧
    (¬(allRevealedB sampleWinResult.board = true ∧ hasPieceOnBoardB sampleWinResult.board
        (((getPlayer? sampleWinResult.players sampleWinResult.activePlayerIndex).map (fun p => p.color)).getD UNKNOWN) = false) →
      getLegalActions sampleWinResult sampleWinResult.activePlayerIndex = [] →
      sampleWinResult.isGameOver = true ∧ sampleWinResult.winner = some (1 - sampleWinResult.activePlayerIndex)) ∧
    (¬(allRevealedB sampleWinResult.board = true ∧ hasPieceOnBoardB sampleWinResult.board
        (((getPlayer? sampleWinResult.players sampleWinResult.activePlayerIndex).map (fun p => p.color)).getD UNKNOWN) = false) →
      getLegalActions sampleWinResult sampleWinResult.activePlayerIndex ≠ [] →
      sampleWinResult.isGameOver = false)) :=
  ⟨rfl, rfl, by decide, rfl, rfl,
    @win_detection_after_non_pass sampleWinState sampleWinAction sampleWinResult
      rfl rfl (by decide) rfl rfl⟩


/-! ## C9: conservation of piece instances -/

def cellCount : Option PieceStack → Nat
  | none => 0
  | some st => st.pieces.length

def boardCount (b : Board) : Nat :=
  (b.map (fun rowl => (rowl.map cellCount).sum)).sum

def handsCount (ps : PlayerState × PlayerState) : Nat :=
  ps.1.hand.pieces.length + ps.2.hand.pieces.length

/-- Total number of piece instances in a state: board plus both hands. -/
def pieceCount (s : GameState) : Nat := boardCount s.board + handsCount s.players

/-- States reachable from `init` by any sequence of successful `applyAction`
calls (accepted or rejected; `none` — a crash — produces no state). -/
inductive Reachable (init : GameState) : GameState → Prop
  | refl : Reachable init init
  | step {s s' : GameState} {a : PlayerAction} :
      Reachable init s → applyAction s a = some s' → Reachable init s'

theorem sum_map_setInList {α : Type _} {l : List α} {n : Nat} {a : α}
    (f : α → α) (g : α → Nat) (h : l.get? n = some a) :
    ((setInList l n f).map g).sum + g a = (l.map g).sum + g (f a) := by
  induction l generalizing n with
  | nil => exact Option.noConfusion h
  | cons b l ih =>
    cases n with
    | zero =>
      injection h with h
      subst h
      simp only [setInList, List.map_cons, List.sum_cons]
      omega
    | succ n =>
      simp only [setInList, List.map_cons, List.sum_cons]
      have := ih h
      omega

theorem mem_setInList {α : Type _} {l : List α} {n : Nat} {f : α → α} {x : α}
    (h : x ∈ setInList l n f) : x ∈ l ∨ ∃ a ∈ l, x = f a := by
  induction l generalizing n with
  | nil => exact absurd h (List.not_mem_nil x)
  | cons b l ih =>
    cases n with
    | zero =>
      simp only [setInList] at h
      rcases List.mem_cons.mp h with h | h
      · exact Or.inr ⟨b, List.mem_cons_self b l, h⟩
      · exact Or.inl (List.mem_cons_of_mem b h)
    | succ n =>
      simp only [setInList] at h
      rcases List.mem_cons.mp h with h | h
      · exact Or.inl (by rw [h]; exact List.mem_cons_self b l)
      · rcases ih h with h | ⟨a, ha, hx⟩
        · exact Or.inl (List.mem_cons_of_mem b h)
        · exact Or.inr ⟨a, List.mem_cons_of_mem b ha, hx⟩

theorem boardShape_setCell {b : Board} (loc : Location) (v : Option PieceStack)
    (h : boardShape b) : boardShape (setCell b loc v) := by
  obtain ⟨hlen, hrow⟩ := h
  unfold setCell
  split
  · exact ⟨hlen, hrow⟩
  · refine ⟨by rw [setInList_length]; exact hlen, ?_⟩
    intro rowl hmem
    rcases mem_setInList hmem with hmem | ⟨rl, hrl, hx⟩
    · exact hrow rowl hmem
    · rw [hx, setInList_length]
      exact hrow rl hrl

theorem boardCount_setCell_core {b : Board} {loc : Location}
    {rowl : List (Option PieceStack)} {cur : Option PieceStack}
    (hrow : jsIndex b loc.row = some rowl) (hcell : jsIndex rowl loc.col = some cur)
    (v : Option PieceStack) :
    boardCount (setCell b loc v) + cellCount cur = boardCount b + cellCount v := by
  rcases jsIndex_eq_some_iff.mp hrow with ⟨hr0, hrget⟩
  rcases jsIndex_eq_some_iff.mp hcell with ⟨hc0, hcget⟩
  unfold setCell
  rw [if_neg (by omega : ¬(loc.row < 0 ∨ loc.col < 0))]
  unfold boardCount
  have houter := sum_map_setInList
      (fun rl => setInList rl loc.col.toNat (fun _ => v))
      (fun rl => (rl.map cellCount).sum) hrget
  have hinner := sum_map_setInList (fun _ => v) cellCount hcget
  dsimp only at houter hinner
  omega

theorem boardCount_setCell_occ {b : Board} {loc : Location} {x : PieceStack}
    (h : jsCellE b loc.row loc.col = some (some x)) (v : Option PieceStack) :
    boardCount (setCell b loc v) + x.pieces.length = boardCount b + cellCount v := by
  unfold jsCellE at h
  rcases hrow : jsIndex b loc.row with _ | rowl
  · rw [hrow] at h; exact Option.noConfusion h
  · rw [hrow, Option.map_some'] at h
    injection h with h
    have hcol : jsIndex rowl loc.col = some (some x) := by
      rcases hc : jsIndex rowl loc.col with _ | o
      · rw [hc] at h; exact Option.noConfusion h
      · rw [hc] at h; exact congrArg some h
    have hcore := boardCount_setCell_core hrow hcol v
    simp only [cellCount] at hcore
    exact hcore

theorem boardCount_setCell_empty {b : Board} {loc : Location}
    (hshape : boardShape b) (hv : isValidCoordinate loc = true)
    (h : jsCellE b loc.row loc.col = some none) (v : Option PieceStack) :
    boardCount (setCell b loc v) = boardCount b + cellCount v := by
  unfold jsCellE at h
  rcases hrow : jsIndex b loc.row with _ | rowl
  · rw [hrow] at h; exact Option.noConfusion h
  · rw [hrow, Option.map_some'] at h
    injection h with h
    have hmem : rowl ∈ b := by
      rcases jsIndex_eq_some_iff.mp hrow with ⟨-, hget⟩
      exact List.get?_mem hget
    have hlen : rowl.length = 8 := hshape.2 rowl hmem
    simp only [isValidCoordinate, Bool.decide_and, Bool.and_eq_true,
      decide_eq_true_eq] at hv
    have hcol : jsIndex rowl loc.col = some none := by
      rcases hc : jsIndex rowl loc.col with _ | o
      · exfalso
        rcases jsIndex_eq_none_iff.mp hc with hneg | hbig
        · omega
        · rw [hlen] at hbig; omega
      · rw [hc] at h
        cases o with
        | none => rfl
        | some x => exact Option.noConfusion h
    have hcore := boardCount_setCell_core hrow hcol v
    rw [show cellCount none = 0 from rfl] at hcore
    omega

theorem handsCount_setPlayer {ps : PlayerState × PlayerState} {i : Nat}
    {p : PlayerState} (h : getPlayer? ps i = some p) (q : PlayerState) :
    handsCount (setPlayer ps i q) + p.hand.pieces.length
      = handsCount ps + q.hand.pieces.length := by
  unfold getPlayer? at h
  unfold setPlayer handsCount
  by_cases h0 : i = 0
  · rw [if_pos h0] at h
    injection h with h
    subst h
    rw [if_pos h0]
    dsimp only
    omega
  · rw [if_neg h0] at h
    by_cases h1 : i = 1
    · rw [if_pos h1] at h
      injection h with h
      subst h
      rw [if_neg h0, if_pos h1]
      dsimp only
      omega
    · rw [if_neg h1] at h
      exact Option.noConfusion h

theorem handsCount_colorsSetPlayers {ps : PlayerState × PlayerState} {pid : Nat}
    {p : PlayerState} (hp : getPlayer? ps pid = some p) (oc c : Color)
    (d : PlayerState) :
    handsCount (setPlayer (setPlayer ps (1 - pid)
        { ((getPlayer? ps (1 - pid)).getD d) with color := oc }) pid
        { p with color := c })
      = handsCount ps := by
  unfold getPlayer? at hp
  by_cases h0 : pid = 0
  · subst h0
    rw [if_pos rfl] at hp
    injection hp with hp
    subst hp
    rfl
  · by_cases h1 : pid = 1
    · subst h1
      rw [if_neg (by decide), if_pos rfl] at hp
      injection hp with hp
      subst hp
      rfl
    · rw [if_neg h0, if_neg h1] at hp
      exact Option.noConfusion hp

theorem length_filter_partition {α : Type _} (l : List α) (pr1 pr2 : α → Bool)
    (hp : ∀ x, pr1 x = !(pr2 x)) :
    (l.filter pr1).length + (l.filter pr2).length = l.length := by
  induction l with
  | nil => rfl
  | cons a l ih =>
    cases h2 : pr2 a <;> simp [List.filter_cons, hp a, h2] <;> omega

theorem pieceCount_finishTurn (s : GameState) (a : PlayerAction) :
    pieceCount (finishTurn s a) = pieceCount s := by
  unfold pieceCount handsCount
  rw [(finishTurn_fields s a).1, (finishTurn_fields s a).2.1]

theorem pieceCount_movePost (s : GameState) (a : PlayerAction) (p : PlayerState)
    (t : Location) (mi : Bool) : pieceCount (movePost s a p t mi) = pieceCount s := by
  unfold pieceCount handsCount
  rw [movePost_board, movePost_players]


theorem flipCase_count {s : GameState} {a : PlayerAction} {p : PlayerState}
    {st' : GameState} (hshape : boardShape s.board)
    (hp : getPlayer? s.players a.playerId = some p)
    (h : flipCase s a p = some st') :
    pieceCount st' = pieceCount s ∧ boardShape st'.board := by
  unfold flipCase at h
  split at h
  · cases h; exact ⟨rfl, hshape⟩
  · rename_i loc hfl
    split at h
    · exact Option.noConfusion h
    · rename_i rowl hrow
      split at h
      · cases h; exact ⟨rfl, hshape⟩
      · rename_i stack hjoin
        split at h
        · cases h; exact ⟨rfl, hshape⟩
        · rename_i top hlast
          split at h
          · cases h; exact ⟨rfl, hshape⟩
          · cases h
            dsimp only
            have hcol : jsIndex rowl loc.col = some (some stack) := by
              rcases hc : jsIndex rowl loc.col with _ | o
              · rw [hc] at hjoin; exact Option.noConfusion hjoin
              · rw [hc] at hjoin; exact congrArg some hjoin
            have hne : stack.pieces ≠ [] := by
              intro he; rw [he] at hlast; exact Option.noConfusion hlast
            have hlen : stack.pieces.length
                = (stack.pieces.dropLast ++ [{ top with faceUp := true }]).length := by
              rw [List.length_append, List.length_dropLast]
              have hpos := List.length_pos.mpr hne
              have hone : ([{ top with faceUp := true }] : List PieceInstance).length = 1 := rfl
              omega
            have hB := boardCount_setCell_core hrow hcol
              (some ⟨stack.pieces.dropLast ++ [{ top with faceUp := true }]⟩)
            rw [show cellCount (some stack) = stack.pieces.length from rfl,
                show cellCount (some (⟨stack.pieces.dropLast ++ [{ top with faceUp := true }]⟩ : PieceStack))
                  = (stack.pieces.dropLast ++ [{ top with faceUp := true }]).length from rfl] at hB
            have hBeq : boardCount (setCell s.board loc
                (some ⟨stack.pieces.dropLast ++ [{ top with faceUp := true }]⟩)) = boardCount s.board := by
              omega
            have hshapeB : boardShape (setCell s.board loc
                (some ⟨stack.pieces.dropLast ++ [{ top with faceUp := true }]⟩)) :=
              boardShape_setCell loc _ hshape
            rw [pieceCount_finishTurn, (finishTurn_fields _ _).1]
            constructor
            · unfold pieceCount
              dsimp only
              split
              · dsimp only
                rw [handsCount_colorsSetPlayers hp]
                omega
              · dsimp only
                omega
            · dsimp only
              split
              · exact hshapeB
              · exact hshapeB


theorem moveInteract_count {s : GameState} {a : PlayerAction} {p : PlayerState}
    {f t : Location} {cr : CaptureResolution} {srcStack destStack : PieceStack}
    {topDest : PieceInstance} {bt : PieceType} {pat : MovePatternDetails}
    {st' : GameState}
    (hshape : boardShape s.board)
    (hp : getPlayer? s.players a.playerId = some p)
    (hne : ¬(f.row = t.row ∧ f.col = t.col))
    (hsrc : jsCellE s.board f.row f.col = some (some srcStack))
    (hdst : jsCellE s.board t.row t.col = some (some destStack))
    (h : moveInteract s a p f t cr srcStack destStack topDest bt pat = some st') :
    pieceCount st' = pieceCount s ∧ boardShape st'.board := by
  have hsrc1 : ∀ v, jsCellE (setCell s.board t v) f.row f.col = some (some srcStack) := by
    intro v
    rw [jsCellE_setCell_other s.board t v f hne]
    exact hsrc
  unfold moveInteract at h
  dsimp only at h
  split at h
  · split at h
    · cases h; exact ⟨rfl, hshape⟩
    · split at h
      · cases h; exact ⟨rfl, hshape⟩
      · cases h
        have hA1 := boardCount_setCell_occ hdst (some ⟨srcStack.pieces⟩)
        have hA2 := boardCount_setCell_occ (hsrc1 (some ⟨srcStack.pieces⟩)) none
        rw [show cellCount (some (⟨srcStack.pieces⟩ : PieceStack)) = srcStack.pieces.length
            from rfl] at hA1
        rw [show cellCount none = 0 from rfl] at hA2
        have hH := handsCount_setPlayer hp
          ⟨p.color, ⟨p.hand.pieces ++ destStack.pieces.map (fun q => { q with color := p.color })⟩⟩
        dsimp only at hH
        rw [List.length_append, List.length_map] at hH
        constructor
        · rw [pieceCount_movePost]
          unfold pieceCount
          dsimp only
          omega
        · rw [movePost_board]
          dsimp only
          exact boardShape_setCell f none (boardShape_setCell t _ hshape)
  · split at h
    · cases h; exact ⟨rfl, hshape⟩
    · split at h
      · cases h; exact ⟨rfl, hshape⟩
      · split at h
        · cases h; exact ⟨rfl, hshape⟩
        · cases h
          have hA1 := boardCount_setCell_occ hdst
            (some ⟨destStack.pieces ++ srcStack.pieces⟩)
          have hA2 := boardCount_setCell_occ
            (hsrc1 (some ⟨destStack.pieces ++ srcStack.pieces⟩)) none
          rw [show cellCount (some (⟨destStack.pieces ++ srcStack.pieces⟩ : PieceStack))
              = (destStack.pieces ++ srcStack.pieces).length from rfl,
              List.length_append] at hA1
          rw [show cellCount none = 0 from rfl] at hA2
          constructor
          · rw [pieceCount_movePost]
            unfold pieceCount
            dsimp only
            omega
          · rw [movePost_board]
            dsimp only
            exact boardShape_setCell f none (boardShape_setCell t _ hshape)

theorem moveResolve_count {s : GameState} {a : PlayerAction} {p : PlayerState}
    {f t : Location} {cr : CaptureResolution} {srcStack : PieceStack}
    {destOpt : Option PieceStack} {st' : GameState}
    (hshape : boardShape s.board)
    (hp : getPlayer? s.players a.playerId = some p)
    (hne : ¬(f.row = t.row ∧ f.col = t.col))
    (hvt : isValidCoordinate t = true)
    (hsrc : jsCellE s.board f.row f.col = some (some srcStack))
    (hdstE : jsCellE s.board t.row t.col = some destOpt)
    (h : moveResolve s a p f t cr srcStack destOpt = some st') :
    pieceCount st' = pieceCount s ∧ boardShape st'.board := by
  have hsrc1 : ∀ v, jsCellE (setCell s.board t v) f.row f.col = some (some srcStack) := by
    intro v
    rw [jsCellE_setCell_other s.board t v f hne]
    exact hsrc
  unfold moveResolve at h
  dsimp only at h
  split at h
  · cases h; exact ⟨rfl, hshape⟩
  · split at h
    · split at h
      · cases h; exact ⟨rfl, hshape⟩
      · split at h
        · cases h; exact ⟨rfl, hshape⟩
        · cases h
          have hA1 := boardCount_setCell_empty hshape hvt hdstE (some ⟨srcStack.pieces⟩)
          have hA2 := boardCount_setCell_occ (hsrc1 (some ⟨srcStack.pieces⟩)) none
          rw [show cellCount (some (⟨srcStack.pieces⟩ : PieceStack)) = srcStack.pieces.length
              from rfl] at hA1
          rw [show cellCount none = 0 from rfl] at hA2
          constructor
          · rw [pieceCount_movePost]
            unfold pieceCount
            dsimp only
            omega
          · rw [movePost_board]
            dsimp only
            exact boardShape_setCell f none (boardShape_setCell t _ hshape)
    · split at h
      · exact Option.noConfusion h
      · split at h
        · cases h; exact ⟨rfl, hshape⟩
        · exact moveInteract_count hshape hp hne hsrc hdstE h

theorem moveCase_count {s : GameState} {a : PlayerAction} {p : PlayerState}
    {st' : GameState}
    (hshape : boardShape s.board)
    (hp : getPlayer? s.players a.playerId = some p)
    (h : moveCase s a p = some st') :
    pieceCount st' = pieceCount s ∧ boardShape st'.board := by
  unfold moveCase at h
  dsimp only at h
  split at h
  · split at h
    · cases h; exact ⟨rfl, hshape⟩
    · rename_i hvalid
      split at h
      · cases h; exact ⟨rfl, hshape⟩
      · rename_i hne
        split at h
        · exact Option.noConfusion h
        · cases h; exact ⟨rfl, hshape⟩
        · rename_i srcStack hsrc
          split at h
          · exact Option.noConfusion h
          · split at h
            · cases h; exact ⟨rfl, hshape⟩
            · split at h
              · cases h; exact ⟨rfl, hshape⟩
              · split at h
                · exact Option.noConfusion h
                · rename_i destOpt hdstE
                  exact moveResolve_count hshape hp hne
                    (not_not.mp hvalid).2 hsrc hdstE h
  · cases h; exact ⟨rfl, hshape⟩


theorem deployCase_count {s : GameState} {a : PlayerAction} {p : PlayerState}
    {st' : GameState}
    (hshape : boardShape s.board)
    (hp : getPlayer? s.players a.playerId = some p)
    (h : deployCase s a p = some st') :
    pieceCount st' = pieceCount s ∧ boardShape st'.board := by
  unfold deployCase at h
  dsimp only at h
  split at h
  · cases h; exact ⟨rfl, hshape⟩
  · split at h
    · rename_i dt dty dcnt hdt hdty hdcnt
      split at h
      · cases h; exact ⟨rfl, hshape⟩
      · split at h
        · cases h; exact ⟨rfl, hshape⟩
        · split at h
          · cases h; exact ⟨rfl, hshape⟩
          · rename_i hvalid
            split at h
            · cases h; exact ⟨rfl, hshape⟩
            · split at h
              · exact Option.noConfusion h
              · rename_i hcell
                cases h
                have hB := boardCount_setCell_empty hshape (not_not.mp hvalid) hcell
                  (some ⟨(takePieces p.hand.pieces dty dcnt.toNat).2⟩)
                rw [show cellCount (some (⟨(takePieces p.hand.pieces dty dcnt.toNat).2⟩ : PieceStack))
                    = (takePieces p.hand.pieces dty dcnt.toNat).2.length from rfl] at hB
                have hH := handsCount_setPlayer hp
                  ⟨p.color, ⟨(takePieces p.hand.pieces dty dcnt.toNat).1⟩⟩
                dsimp only at hH
                have htk := takePieces_length p.hand.pieces dty dcnt.toNat
                rw [pieceCount_finishTurn, (finishTurn_fields _ _).1]
                constructor
                · unfold pieceCount
                  dsimp only
                  omega
                · dsimp only
                  exact boardShape_setCell dt _ hshape
              · rename_i targetStack hcell
                have hH := handsCount_setPlayer hp
                  ⟨p.color, ⟨(takePieces p.hand.pieces dty dcnt.toNat).1
                    ++ (takePieces p.hand.pieces dty dcnt.toNat).2⟩⟩
                dsimp only at hH
                rw [List.length_append] at hH
                have htk := takePieces_length p.hand.pieces dty dcnt.toNat
                have hrest : handsCount (setPlayer s.players a.playerId
                      ⟨p.color, ⟨(takePieces p.hand.pieces dty dcnt.toNat).1
                        ++ (takePieces p.hand.pieces dty dcnt.toNat).2⟩⟩)
                    = handsCount s.players := by
                  omega
                split at h
                · exact Option.noConfusion h
                · split at h
                  · cases h
                    refine ⟨?_, hshape⟩
                    unfold pieceCount fail
                    dsimp only
                    omega
                  · split at h
                    · cases h
                      refine ⟨?_, hshape⟩
                      unfold pieceCount fail
                      dsimp only
                      omega
                    · split at h
                      · cases h
                        refine ⟨?_, hshape⟩
                        unfold pieceCount fail
                        dsimp only
                        omega
                      · cases h
                        have hB := boardCount_setCell_occ hcell
                          (some ⟨targetStack.pieces ++ (takePieces p.hand.pieces dty dcnt.toNat).2⟩)
                        rw [show cellCount (some (⟨targetStack.pieces
                              ++ (takePieces p.hand.pieces dty dcnt.toNat).2⟩ : PieceStack))
                            = (targetStack.pieces
                              ++ (takePieces p.hand.pieces dty dcnt.toNat).2).length from rfl,
                            List.length_append] at hB
                        have hH2 := handsCount_setPlayer hp
                          ⟨p.color, ⟨(takePieces p.hand.pieces dty dcnt.toNat).1⟩⟩
                        dsimp only at hH2
                        rw [pieceCount_finishTurn, (finishTurn_fields _ _).1]
                        constructor
                        · unfold pieceCount
                          dsimp only
                          omega
                        · dsimp only
                          exact boardShape_setCell dt _ hshape
    · cases h; exact ⟨rfl, hshape⟩

theorem retrieveCase_count {s : GameState} {a : PlayerAction} {p : PlayerState}
    {st' : GameState}
    (hshape : boardShape s.board)
    (hp : getPlayer? s.players a.playerId = some p)
    (h : retrieveCase s a p = some st') :
    pieceCount st' = pieceCount s ∧ boardShape st'.board := by
  unfold retrieveCase at h
  dsimp only at h
  split at h
  · cases h; exact ⟨rfl, hshape⟩
  · split at h
    · rename_i rf ids hrf hids
      split at h
      · exact Option.noConfusion h
      · cases h; exact ⟨rfl, hshape⟩
      · rename_i stack hcell
        split at h
        · exact Option.noConfusion h
        · split at h
          · cases h; exact ⟨rfl, hshape⟩
          · split at h
            · cases h; exact ⟨rfl, hshape⟩
            · split at h
              · cases h; exact ⟨rfl, hshape⟩
              · cases h
                have hB := boardCount_setCell_occ hcell
                  (some ⟨stack.pieces.filter (fun q => ¬ ids.contains q.id)⟩)
                rw [show cellCount (some (⟨stack.pieces.filter
                      (fun q => ¬ ids.contains q.id)⟩ : PieceStack))
                    = (stack.pieces.filter (fun q => ¬ ids.contains q.id)).length
                    from rfl] at hB
                have hpart := length_filter_partition stack.pieces
                  (fun q => ¬ ids.contains q.id) (fun q => ids.contains q.id)
                  (by intro x; cases hq : ids.contains x.id <;> simp [hq])
                have hH := handsCount_setPlayer hp
                  ⟨p.color, ⟨p.hand.pieces ++ stack.pieces.filter (fun q => ids.contains q.id)⟩⟩
                dsimp only at hH
                rw [List.length_append] at hH
                rw [pieceCount_finishTurn, (finishTurn_fields _ _).1]
                constructor
                · unfold pieceCount
                  dsimp only
                  omega
                · dsimp only
                  exact boardShape_setCell rf _ hshape
    · cases h; exact ⟨rfl, hshape⟩


theorem runMechanics_count {s : GameState} {a : PlayerAction} {p : PlayerState}
    {st' : GameState}
    (hshape : boardShape s.board)
    (hp : getPlayer? s.players a.playerId = some p)
    (h : runMechanics s a p = some st') :
    pieceCount st' = pieceCount s ∧ boardShape st'.board := by
  unfold runMechanics at h
  split at h
  · exact flipCase_count hshape hp h
  · exact moveCase_count hshape hp h
  · exact deployCase_count hshape hp h
  · exact retrieveCase_count hshape hp h
  · cases h
    refine ⟨pieceCount_finishTurn _ _, ?_⟩
    rw [(finishTurn_fields _ _).1]
    exact hshape

/-- Every successful `applyAction` call — accepted or rejected — preserves
the total piece-instance count and the 4×8 board shape. -/
theorem applyAction_count {st : GameState} {a : PlayerAction} {st' : GameState}
    (hshape : boardShape st.board)
    (happ : applyAction st a = some st') :
    pieceCount st' = pieceCount st ∧ boardShape st'.board := by
  unfold applyAction at happ
  dsimp only at happ
  split at happ
  · cases happ; exact ⟨rfl, hshape⟩
  · split at happ
    · cases happ; exact ⟨rfl, hshape⟩
    · split at happ
      · exact Option.noConfusion happ
      · rename_i player hp
        have hrun : runMechanics { st with error := none } a player = some st' →
            pieceCount st' = pieceCount st ∧ boardShape st'.board := by
          intro h2
          exact @runMechanics_count { st with error := none } a player st' hshape hp h2
        split at happ
        · split at happ
          · cases happ; exact ⟨rfl, hshape⟩
          · split at happ
            · cases happ; exact ⟨rfl, hshape⟩
            · split at happ
              · cases happ; exact ⟨rfl, hshape⟩
              · split at happ
                · cases happ; exact ⟨rfl, hshape⟩
                · exact hrun happ
        · split at happ
          · cases happ; exact ⟨rfl, hshape⟩
          · exact hrun happ

theorem sum_map_range_const (n k : Nat) (f : Nat → Nat) :
    (∀ i, i < n → f i = k) → ((List.range n).map f).sum = n * k := by
  induction n with
  | zero => intro _; simp
  | succ n ih =>
    intro h
    rw [List.range_succ, List.map_append, List.sum_append,
        ih (fun i hi => h i (by omega))]
    have hn := h n (by omega)
    simp only [List.map_cons, List.map_nil, List.sum_cons, List.sum_nil, hn, Nat.succ_mul]
    omega

theorem boardShape_init (deck : List PieceInstance) :
    boardShape (initRandomGame deck).board := by
  unfold initRandomGame boardShape
  dsimp only
  constructor
  · rw [List.length_map, List.length_range]
  · intro rowl hmem
    rw [List.mem_map] at hmem
    obtain ⟨r, -, hrow⟩ := hmem
    rw [← hrow, List.length_map, List.length_range]

theorem pieceCount_init {deck : List PieceInstance} (h : deck.length = 32) :
    pieceCount (initRandomGame deck) = 32 := by
  have hcell : ∀ k : Nat, k < 32 →
      cellCount (match deck.get? k with
        | some piece => some ⟨[piece]⟩
        | none => none) = 1 := by
    intro k hk
    rcases hg : deck.get? k with _ | pp
    · rw [List.get?_eq_none] at hg; omega
    · rfl
  unfold pieceCount initRandomGame boardCount handsCount
  dsimp only
  rw [show (List.range 4) = [0, 1, 2, 3] from rfl,
      show (List.range 8) = [0, 1, 2, 3, 4, 5, 6, 7] from rfl]
  simp only [List.map_cons, List.map_nil, List.sum_cons, List.sum_nil]
  rw [hcell (0 * 8 + 0) (by norm_num)]
  rw [hcell (0 * 8 + 1) (by norm_num)]
  rw [hcell (0 * 8 + 2) (by norm_num)]
  rw [hcell (0 * 8 + 3) (by norm_num)]
  rw [hcell (0 * 8 + 4) (by norm_num)]
  rw [hcell (0 * 8 + 5) (by norm_num)]
  rw [hcell (0 * 8 + 6) (by norm_num)]
  rw [hcell (0 * 8 + 7) (by norm_num)]
  rw [hcell (1 * 8 + 0) (by norm_num)]
  rw [hcell (1 * 8 + 1) (by norm_num)]
  rw [hcell (1 * 8 + 2) (by norm_num)]
  rw [hcell (1 * 8 + 3) (by norm_num)]
  rw [hcell (1 * 8 + 4) (by norm_num)]
  rw [hcell (1 * 8 + 5) (by norm_num)]
  rw [hcell (1 * 8 + 6) (by norm_num)]
  rw [hcell (1 * 8 + 7) (by norm_num)]
  rw [hcell (2 * 8 + 0) (by norm_num)]
  rw [hcell (2 * 8 + 1) (by norm_num)]
  rw [hcell (2 * 8 + 2) (by norm_num)]
  rw [hcell (2 * 8 + 3) (by norm_num)]
  rw [hcell (2 * 8 + 4) (by norm_num)]
  rw [hcell (2 * 8 + 5) (by norm_num)]
  rw [hcell (2 * 8 + 6) (by norm_num)]
  rw [hcell (2 * 8 + 7) (by norm_num)]
  rw [hcell (3 * 8 + 0) (by norm_num)]
  rw [hcell (3 * 8 + 1) (by norm_num)]
  rw [hcell (3 * 8 + 2) (by norm_num)]
  rw [hcell (3 * 8 + 3) (by norm_num)]
  rw [hcell (3 * 8 + 4) (by norm_num)]
  rw [hcell (3 * 8 + 5) (by norm_num)]
  rw [hcell (3 * 8 + 6) (by norm_num)]
  rw [hcell (3 * 8 + 7) (by norm_num)]
  norm_num


/-- C9: conservation of piece instances.  From the initial state built over
any 32-piece deck, every state reachable by successful `applyAction` calls
(accepted or rejected) has exactly 32 piece instances in total: pieces on
the board plus pieces in both players' hands.  No action creates or
destroys a piece instance. -/
theorem piece_conservation {deck : List PieceInstance} (hdeck : deck.length = 32)
    {s : GameState} (hreach : Reachable (initRandomGame deck) s) :
    pieceCount s = 32 := by
  have key : pieceCount s = 32 ∧ boardShape s.board := by
    induction hreach with
    | refl => exact ⟨pieceCount_init hdeck, boardShape_init deck⟩
    | step hr happ ih =>
      obtain ⟨hc, hs⟩ := ih
      obtain ⟨hc', hs'⟩ := applyAction_count hs happ
      exact ⟨by rw [hc', hc], hs'⟩
  exact key.1

def sampleDeck : List PieceInstance :=
  List.replicate 32 ⟨"p", SOLDIER, RED, false⟩

theorem piece_conservation_witness :
    sampleDeck.length = 32 ∧ pieceCount (initRandomGame sampleDeck) = 32 :=
  ⟨rfl, @piece_conservation sampleDeck rfl (initRandomGame sampleDeck) Reachable.refl⟩


end Banqi
